import Mathlib

/-!
Verification of the TRAND indicator-and-signal engine and its
multi-exchange data-acquisition layer, shallowly embedded from
`src/data_fetcher.py` and `src/analyzer.py`.

Machine floats are modelled by `EF`, rationals extended with the IEEE
special values `nan`, `inf`, `ninf`; arithmetic and comparisons on `EF`
follow the IEEE rules numpy/pandas apply (comparisons with `nan` are
false, positive/0 is `inf`, 0/0 is `nan`, finite/`inf` is 0).  The square
root inside pandas' rolling `.std()` is kept abstract as a parameter
`sqrtQ : ℚ → ℚ`; no theorem below depends on its values.
-/

namespace Trand

/-- One OHLCV row, as produced by `ccxt.fetch_ohlcv` and converted by
`DataFetcher._try_fetch_from_exchange`. -/
structure Candle where
  timestamp : Int
  openP : ℚ
  high : ℚ
  low : ℚ
  close : ℚ
  volume : ℚ
deriving DecidableEq, Repr

/-! ## Data fetcher (`src/data_fetcher.py`)

An adapter's reaction to one `exchange.fetch_ohlcv(symbol, timeframe,
limit=limit)` call is modelled by a behaviour function
`beh : exchangeId → symbol → timeframe → limit → attempt → FetchOutcome`:
it either returns rows, raises `ccxt.NetworkError`, or raises any other
exception (`AdapterError`: bad symbol, bad timeframe, ...).  The attempt
index is the position of the call inside one `_try_fetch_from_exchange`
retry loop. -/

inductive FetchOutcome where
  | rows (data : List Candle)
  | netErr
  | adapterErr
deriving DecidableEq, Repr

abbrev Behavior := String → String → String → Nat → Nat → FetchOutcome

/-- The retry loop `for attempt in range(3)` of
`DataFetcher._try_fetch_from_exchange`.  Returns the rows on success
(`none` when the loop ends by raising, which the enclosing
`except Exception` turns into an empty frame), together with the number
of attempts actually made and the seconds slept in `time.sleep(2)`
backoffs.  `remaining` is the number of loop iterations left; the source
always starts it at 3. -/
def tryFetchGo (beh : Behavior) (ex sym tf : String) (lim : Nat) :
    Nat → Nat → Option (List Candle) × Nat × Nat
  | _, 0 => (none, 0, 0)
  | attempt, r + 1 =>
    match beh ex sym tf lim attempt with
    | .rows d => (some d, 1, 0)
    | .adapterErr => (none, 1, 0)
    | .netErr =>
      if r = 0 then
        (none, 1, 0)
      else
        let rest := tryFetchGo beh ex sym tf lim (attempt + 1) r
        (rest.1, rest.2.1 + 1, rest.2.2 + 2)

/-- `DataFetcher._try_fetch_from_exchange`: runs the 3-attempt retry loop
and catches every exception escaping it, returning an empty frame in that
case.  Result: (dataframe rows, attempts made, backoff seconds). -/
def tryFetchFromExchange (beh : Behavior) (ex sym tf : String) (lim : Nat) :
    List Candle × Nat × Nat :=
  let r := tryFetchGo beh ex sym tf lim 0 3
  (r.1.getD [], r.2.1, r.2.2)

/-- Trace entry: exchange tried, attempts made on it, backoff seconds. -/
abbrev TraceEntry := String × Nat × Nat

/-- Result of `DataFetcher.fetch_ohlcv`: the rows returned, the value of
`self.exchange_id` after the call, and the per-exchange attempt trace. -/
structure FetchResult where
  df : List Candle
  finalExchangeId : String
  trace : List TraceEntry
deriving DecidableEq, Repr

/-- The fallback loop of `DataFetcher.fetch_ohlcv` (lines 85-104).  Each
iteration skips a fallback equal to the *current* `self.exchange_id`,
otherwise sets `self.exchange_id` to the fallback, re-initializes the
exchange (`initOk` tells whether `_initialize_exchange` succeeds; on
failure the exception is caught and the loop continues), fetches, and
returns on a non-empty frame. -/
def fetchFallbackLoop (beh : Behavior) (initOk : String → Bool)
    (sym tf : String) (lim : Nat) :
    List String → String → List TraceEntry → FetchResult
  | [], exId, tr => ⟨[], exId, tr⟩
  | f :: rest, exId, tr =>
    if f = exId then
      fetchFallbackLoop beh initOk sym tf lim rest exId tr
    else
      if initOk f then
        let r := tryFetchFromExchange beh f sym tf lim
        if r.1 ≠ [] then
          ⟨r.1, f, tr ++ [(f, r.2.1, r.2.2)]⟩
        else
          fetchFallbackLoop beh initOk sym tf lim rest f (tr ++ [(f, r.2.1, r.2.2)])
      else
        fetchFallbackLoop beh initOk sym tf lim rest f tr

/-- `DataFetcher.fetch_ohlcv`: try the current exchange, then the
fallback list.  The class constant `FALLBACK_EXCHANGES` is passed as the
`fallbacks` argument; `primary` is `self.exchange_id` on entry. -/
def fetchOhlcv (beh : Behavior) (initOk : String → Bool)
    (sym tf : String) (lim : Nat) (primary : String)
    (fallbacks : List String) : FetchResult :=
  let r := tryFetchFromExchange beh primary sym tf lim
  if r.1 ≠ [] then
    ⟨r.1, primary, [(primary, r.2.1, r.2.2)]⟩
  else
    fetchFallbackLoop beh initOk sym tf lim fallbacks primary
      [(primary, r.2.1, r.2.2)]

/-- The class constant `DataFetcher.FALLBACK_EXCHANGES`. -/
def FALLBACK_EXCHANGES : List String := ["kraken", "coinbase", "kucoin", "bybit"]

/-- An attempt outcome that is a failure (raises). -/
def FetchOutcome.isFailure : FetchOutcome → Prop
  | .rows _ => False
  | .netErr => True
  | .adapterErr => True

instance : DecidablePred FetchOutcome.isFailure := by
  intro o
  cases o <;> simp [FetchOutcome.isFailure] <;> infer_instance

/-- Total number of fetch attempts recorded in a trace. -/
def totalAttempts (tr : List TraceEntry) : Nat :=
  (tr.map (fun e => e.2.1)).sum

/-! ## Extended floats

`EF` models the IEEE float values occurring in the analyzer: finite
values are exact rationals (none of the claims below depends on rounding),
plus `nan` and the two infinities, with the numpy/pandas arithmetic and
comparison rules. -/

inductive EF where
  | nan
  | inf
  | ninf
  | fin (q : ℚ)
deriving DecidableEq, Repr

namespace EF

def add : EF → EF → EF
  | fin a, fin b => fin (a + b)
  | fin _, inf => inf
  | inf, fin _ => inf
  | fin _, ninf => ninf
  | ninf, fin _ => ninf
  | inf, inf => inf
  | ninf, ninf => ninf
  | inf, ninf => nan
  | ninf, inf => nan
  | nan, _ => nan
  | _, nan => nan

def neg : EF → EF
  | nan => nan
  | inf => ninf
  | ninf => inf
  | fin q => fin (-q)

def sub (a b : EF) : EF := a.add b.neg

def mul : EF → EF → EF
  | fin a, fin b => fin (a * b)
  | inf, fin b => if 0 < b then inf else if b < 0 then ninf else nan
  | fin a, inf => if 0 < a then inf else if a < 0 then ninf else nan
  | ninf, fin b => if 0 < b then ninf else if b < 0 then inf else nan
  | fin a, ninf => if 0 < a then ninf else if a < 0 then inf else nan
  | inf, inf => inf
  | ninf, ninf => inf
  | inf, ninf => ninf
  | ninf, inf => ninf
  | nan, _ => nan
  | _, nan => nan

def div : EF → EF → EF
  | fin a, fin b =>
    if b ≠ 0 then fin (a / b)
    else if 0 < a then inf else if a < 0 then ninf else nan
  | fin _, inf => fin 0
  | fin _, ninf => fin 0
  | inf, fin b => if 0 ≤ b then inf else ninf
  | ninf, fin b => if 0 ≤ b then ninf else inf
  | inf, inf => nan
  | inf, ninf => nan
  | ninf, inf => nan
  | ninf, ninf => nan
  | nan, _ => nan
  | _, nan => nan

/-- IEEE `<` (false whenever an operand is `nan`). -/
def ltb : EF → EF → Bool
  | fin a, fin b => a < b
  | fin _, inf => true
  | ninf, fin _ => true
  | ninf, inf => true
  | _, _ => false

/-- IEEE `≤` (false whenever an operand is `nan`). -/
def leb : EF → EF → Bool
  | fin a, fin b => a ≤ b
  | fin _, inf => true
  | inf, fin _ => false
  | fin _, ninf => false
  | ninf, fin _ => true
  | inf, inf => true
  | ninf, ninf => true
  | inf, ninf => false
  | ninf, inf => true
  | _, _ => false

/-- IEEE `>`. -/
def gtb (a b : EF) : Bool := ltb b a

/-- IEEE `≥`. -/
def geb (a b : EF) : Bool := leb b a

/-- Whether the value is an ordinary (finite) number. -/
def isFin : EF → Bool
  | fin _ => true
  | _ => false

end EF

/-! ## Indicator engine (`TechnicalAnalyzer.calculate_all_indicators`)

All indicators operate on the `close` column.  `rolling(window=w)`
leaves the first `w-1` positions NaN (pandas' default
`min_periods = window`); `ewm(span=p, adjust=False)` is the plain
first-value-seeded exponential recursion and is defined at every
position. -/

/-- Sum of the trailing `w`-window ending at position `i`. -/
def windowSum (xs : List ℚ) (i w : Nat) : ℚ :=
  ((xs.take (i + 1)).drop (i + 1 - w)).sum

/-- Mean of the trailing `w`-window ending at position `i`. -/
def meanAt (xs : List ℚ) (i w : Nat) : ℚ :=
  windowSum xs i w / w

/-- `Series.rolling(window=w).mean()`. -/
def rollingMeanQ (w : Nat) (xs : List ℚ) : List EF :=
  (List.range xs.length).map fun i =>
    if i + 1 < w then .nan else .fin (meanAt xs i w)

/-- Sample variance (pandas `.std()` uses `ddof=1`) of the trailing
`w`-window ending at position `i`. -/
def sampleVarAt (xs : List ℚ) (i w : Nat) : ℚ :=
  let win := (xs.take (i + 1)).drop (i + 1 - w)
  let m := win.sum / w
  ((win.map fun x => (x - m) ^ 2).sum) / (w - 1)

/-- `Series.rolling(window=w).std()`.  The square root is the abstract
parameter `sqrtQ` (see the file header). -/
def rollingStdQ (sqrtQ : ℚ → ℚ) (w : Nat) (xs : List ℚ) : List EF :=
  (List.range xs.length).map fun i =>
    if i + 1 < w then .nan else .fin (sqrtQ (sampleVarAt xs i w))

/-- Body of the `ewm(span=p, adjust=False).mean()` recursion:
`y_t = α·x_t + (1-α)·y_{t-1}`. -/
def emaGo (α : ℚ) (prev : ℚ) : List ℚ → List ℚ
  | [] => []
  | x :: rest =>
    let cur := α * x + (1 - α) * prev
    cur :: emaGo α cur rest

/-- `Series.ewm(span=p, adjust=False).mean()` with `α = 2/(p+1)`,
seeded by the first data point. -/
def emaQ (p : Nat) : List ℚ → List ℚ
  | [] => []
  | x :: rest => x :: emaGo (2 / ((p : ℚ) + 1)) x rest

/-- `delta = close.diff(); gain = delta.where(delta > 0, 0)`.
`diff` puts NaN at position 0 and `NaN > 0` is false, so position 0
becomes the fill value 0. -/
def gains : List ℚ → List ℚ
  | [] => []
  | x :: rest =>
    0 :: (List.zipWith (fun a b => a - b) rest (x :: rest)).map
      fun d => if 0 < d then d else 0

/-- `loss = -delta.where(delta < 0, 0)`. -/
def losses : List ℚ → List ℚ
  | [] => []
  | x :: rest =>
    0 :: (List.zipWith (fun a b => a - b) rest (x :: rest)).map
      fun d => if d < 0 then -d else 0

/-- The RSI period from `TECHNICAL_INDICATORS["rsi"]`. -/
def RSI_PERIOD : Nat := 14

/-- `rs = avg_gain / avg_loss` (numpy division: positive/0 = inf,
0/0 = nan). -/
def rsList (xs : List ℚ) : List EF :=
  List.zipWith EF.div (rollingMeanQ RSI_PERIOD (gains xs))
    (rollingMeanQ RSI_PERIOD (losses xs))

/-- `rsi = 100 - (100 / (1 + rs))`. -/
def rsiList (xs : List ℚ) : List EF :=
  (rsList xs).map fun r =>
    (EF.fin 100).sub ((EF.fin 100).div ((EF.fin 1).add r))

/-- `macd = ema(12) - ema(26)` (both `adjust=False`). -/
def macdLine (xs : List ℚ) : List ℚ :=
  List.zipWith (fun a b => a - b) (emaQ 12 xs) (emaQ 26 xs)

/-- `macd_signal = macd.ewm(span=9, adjust=False).mean()`. -/
def macdSignalLine (xs : List ℚ) : List ℚ :=
  emaQ 9 (macdLine xs)

/-- `macd_hist = macd - macd_signal`. -/
def macdHistLine (xs : List ℚ) : List ℚ :=
  List.zipWith (fun a b => a - b) (macdLine xs) (macdSignalLine xs)

/-- `upper_band = middle_band + (std_dev * std)` with `std = 2.0`. -/
def bbUpper (sqrtQ : ℚ → ℚ) (xs : List ℚ) : List EF :=
  List.zipWith EF.add (rollingMeanQ 20 xs)
    ((rollingStdQ sqrtQ 20 xs).map fun s => s.mul (.fin 2))

/-- `lower_band = middle_band - (std_dev * std)`. -/
def bbLower (sqrtQ : ℚ → ℚ) (xs : List ℚ) : List EF :=
  List.zipWith EF.sub (rollingMeanQ 20 xs)
    ((rollingStdQ sqrtQ 20 xs).map fun s => s.mul (.fin 2))

/-- The `close` column of a dataframe. -/
def closesOf (d : List Candle) : List ℚ := d.map Candle.close

/-- `TechnicalAnalyzer.calculate_all_indicators` on a dataframe: the
indicator dictionary in insertion order, with the periods of
`TECHNICAL_INDICATORS` (`sma: [20,50,200]`, `ema: [9,21,55,200]`,
`rsi: 14`, `macd: 12/26/9`, `bbands: 20 / 2.0`).  Empty data yields the
empty dictionary. -/
def calculateAllIndicators (sqrtQ : ℚ → ℚ) (d : List Candle) :
    List (String × List EF) :=
  if d = [] then []
  else
    let xs := closesOf d
    [("sma_20", rollingMeanQ 20 xs),
     ("sma_50", rollingMeanQ 50 xs),
     ("sma_200", rollingMeanQ 200 xs),
     ("ema_9", (emaQ 9 xs).map .fin),
     ("ema_21", (emaQ 21 xs).map .fin),
     ("ema_55", (emaQ 55 xs).map .fin),
     ("ema_200", (emaQ 200 xs).map .fin),
     ("rsi", rsiList xs),
     ("macd", (macdLine xs).map .fin),
     ("macd_signal", (macdSignalLine xs).map .fin),
     ("macd_hist", (macdHistLine xs).map .fin),
     ("bb_upper", bbUpper sqrtQ xs),
     ("bb_middle", rollingMeanQ 20 xs),
     ("bb_lower", bbLower sqrtQ xs)]

/-! ## Signal generator (`TechnicalAnalyzer.generate_signals`)

Each block of the `try` body is a small function returning
`Except String (Option String)`: `.error` models an exception escaping
to the enclosing `except` handler (which returns `{"error": ...}`),
`.ok none` models the block being skipped because its indicator keys are
missing, `.ok (some v)` the signal value written into the dict.  The only
raising operations are the `[-1]`/`[-2]` accesses on too-short slices. -/

/-- `series.iloc[-2:].values` read at `[-2]` and `[-1]`: returns
`(values[-2], values[-1])`, or `none` when the access raises
`IndexError` (fewer than two entries). -/
def last2 (xs : List EF) : Option (EF × EF) :=
  match xs.reverse with
  | a :: b :: _ => some (b, a)
  | _ => none

/-- The EMA crossover block (keys `ema_9`, `ema_55`).  Python's `and`
short-circuits: the `[-2]` accesses are evaluated only when the `[-1]`
comparison of the same condition is true (the two `[-1]` comparisons
are mutually exclusive, so at most one branch reads `[-2]`); when both
`[-1]` comparisons are false — e.g. a single candle, where the two EMAs
coincide, or NaN values — the block lands on `NEUTRAL` without touching
`[-2]`. -/
def emaCrossSignal (inds : List (String × List EF)) :
    Except String (Option String) :=
  match inds.lookup "ema_9", inds.lookup "ema_55" with
  | some s, some l =>
    match s.getLast?, l.getLast? with
    | some s1, some l1 =>
      if s1.gtb l1 then
        match last2 s, last2 l with
        | some (s2, _), some (l2, _) =>
          .ok (some (if s2.leb l2 then "BUY" else "NEUTRAL"))
        | _, _ => .error "index out of bounds"
      else if s1.ltb l1 then
        match last2 s, last2 l with
        | some (s2, _), some (l2, _) =>
          .ok (some (if s2.geb l2 then "SELL" else "NEUTRAL"))
        | _, _ => .error "index out of bounds"
      else .ok (some "NEUTRAL")
    | _, _ => .error "index out of bounds"
  | _, _ => .ok none

/-- The RSI block (`BUY` below 30, `SELL` above 70; NaN compares false
on both sides, landing in the `NEUTRAL` branch). -/
def rsiSignal (inds : List (String × List EF)) :
    Except String (Option String) :=
  match inds.lookup "rsi" with
  | some r =>
    match r.getLast? with
    | some v =>
      .ok (some (if v.ltb (.fin 30) then "BUY"
        else if v.gtb (.fin 70) then "SELL"
        else "NEUTRAL"))
    | none => .error "index out of bounds"
  | none => .ok none

/-- The MACD crossover block (keys `macd`, `macd_signal`), with the
same short-circuit structure as the EMA block: on a single candle the
macd line and its signal line coincide, both `[-1]` comparisons are
false and `[-2]` is never read. -/
def macdCrossSignal (inds : List (String × List EF)) :
    Except String (Option String) :=
  match inds.lookup "macd", inds.lookup "macd_signal" with
  | some m, some s =>
    match m.getLast?, s.getLast? with
    | some m1, some s1 =>
      if m1.gtb s1 then
        match last2 m, last2 s with
        | some (m2, _), some (s2, _) =>
          .ok (some (if m2.leb s2 then "BUY" else "NEUTRAL"))
        | _, _ => .error "index out of bounds"
      else if m1.ltb s1 then
        match last2 m, last2 s with
        | some (m2, _), some (s2, _) =>
          .ok (some (if m2.geb s2 then "SELL" else "NEUTRAL"))
        | _, _ => .error "index out of bounds"
      else .ok (some "NEUTRAL")
    | _, _ => .error "index out of bounds"
  | _, _ => .ok none

/-- The Bollinger-band block: compares the last close against the last
upper/lower band (NaN bands compare false, landing in `NEUTRAL`). -/
def bbandsSignal (inds : List (String × List EF))
    (data : Option (List Candle)) : Except String (Option String) :=
  match inds.lookup "bb_upper", inds.lookup "bb_middle",
      inds.lookup "bb_lower" with
  | some up, some _, some lo =>
    match data with
    | none => .error "no data"
    | some d =>
      match (closesOf d).getLast?, up.getLast?, lo.getLast? with
      | some c, some u, some l =>
        .ok (some (if (EF.fin c).ltb l then "BUY"
          else if (EF.fin c).gtb u then "SELL"
          else "NEUTRAL"))
      | _, _, _ => .error "index out of bounds"
  | _, _, _ => .ok none

/-- A dict entry for a block's outcome (`none` = key absent). -/
def optEntry (k : String) : Option String → List (String × String)
  | none => []
  | some v => [(k, v)]

/-- The `overall` simple-majority vote over the produced signal values:
count `BUY` and `SELL` occurrences, `BUY`/`SELL` on a strict majority,
`NEUTRAL` on any tie. -/
def overallVote (vals : List String) : String :=
  let buys := (vals.filter fun v => v = "BUY").length
  let sells := (vals.filter fun v => v = "SELL").length
  if sells < buys then "BUY"
  else if buys < sells then "SELL"
  else "NEUTRAL"

/-- The `try` block of `generate_signals`: the four indicator blocks in
source order followed by the `overall` vote over the values produced so
far. -/
def signalsTry (inds : List (String × List EF))
    (data : Option (List Candle)) :
    Except String (List (String × String)) := do
  let e ← emaCrossSignal inds
  let r ← rsiSignal inds
  let m ← macdCrossSignal inds
  let b ← bbandsSignal inds data
  let base := optEntry "ema_cross" e ++ optEntry "rsi" r ++
    optEntry "macd" m ++ optEntry "bbands" b
  pure (base ++ [("overall", overallVote (base.map Prod.snd))])

/-! ## Analyzer instance state -/

/-- The mutable fields of a `TechnicalAnalyzer` instance. -/
structure AnalyzerState where
  data : Option (List Candle)
  indicators : List (String × List EF)
  signals : List (String × String)
deriving Repr

/-- `TechnicalAnalyzer.set_data`: stores the new dataframe and resets
`self.indicators` and `self.signals` to empty dicts. -/
def setData (d : List Candle) (_st : AnalyzerState) : AnalyzerState :=
  ⟨some d, [], []⟩

/-- Python dict assignment `m[k] = v`: overwrite in place when the key
exists, append otherwise. -/
def dictSet (m : List (String × α)) (k : String) (v : α) :
    List (String × α) :=
  if m.any fun p => p.1 = k then
    m.map fun p => if p.1 = k then (k, v) else p
  else m ++ [(k, v)]

/-- Sequence of dict assignments. -/
def dictSetMany (m : List (String × α)) (kvs : List (String × α)) :
    List (String × α) :=
  kvs.foldl (fun acc p => dictSet acc p.1 p.2) m

/-- `calculate_all_indicators` as a state transformer: writes the
computed series into `self.indicators` key by key and returns the dict;
missing/empty data returns `{}` and leaves the state untouched. -/
def calcAllSt (sqrtQ : ℚ → ℚ) (st : AnalyzerState) :
    AnalyzerState × List (String × List EF) :=
  match st.data with
  | none => (st, [])
  | some d =>
    if d = [] then (st, [])
    else
      let inds := dictSetMany st.indicators (calculateAllIndicators sqrtQ d)
      ({st with indicators := inds}, inds)

/-- `generate_signals` as a state transformer: computes indicators first
when `self.indicators` is empty, returns `{}` when it still is, runs the
`try` block, stores the result in `self.signals` on success and returns
`{"error": msg}` on an exception. -/
def generateSignalsSt (sqrtQ : ℚ → ℚ) (st : AnalyzerState) :
    AnalyzerState × List (String × String) :=
  let st1 := if st.indicators = [] then (calcAllSt sqrtQ st).1 else st
  if st1.indicators = [] then (st1, [])
  else
    match signalsTry st1.indicators st1.data with
    | .ok s => ({st1 with signals := s}, s)
    | .error e => (st1, [("error", e)])

/-- Signals freshly computed for a dataframe: `set_data` then
`generate_signals`. -/
def generateSignalsFresh (sqrtQ : ℚ → ℚ) (d : List Candle) :
    List (String × String) :=
  (generateSignalsSt sqrtQ (setData d ⟨none, [], []⟩)).2

/-! ## Market summary (`TechnicalAnalyzer.get_market_summary`) -/

/-- The record returned on the success path. -/
structure MarketSummary where
  currentPrice : ℚ
  priceChange : ℚ
  priceChangePct : EF
  high24 : ℚ
  low24 : ℚ
  volume24 : ℚ
  trend : String
deriving DecidableEq, Repr

/-- `get_market_summary` result: `{}` on missing/empty data,
`{"error": msg}` when the `try` body raises, otherwise the summary. -/
inductive SummaryResult where
  | emptyRes
  | err (msg : String)
  | ok (s : MarketSummary)
deriving DecidableEq, Repr

/-- `.max()` of a non-empty column (0 is a junk value for the
unreachable empty case). -/
def listMax : List ℚ → ℚ
  | [] => 0
  | x :: xs => xs.foldl max x

/-- `.min()` of a non-empty column. -/
def listMin : List ℚ → ℚ
  | [] => 0
  | x :: xs => xs.foldl min x

/-- Python truthiness of the value bound to `sma20`/`sma50`: `None` and
`0.0` are falsy, every other float (NaN and infinities included) is
truthy. -/
def truthy : Option EF → Bool
  | none => false
  | some (.fin q) => q ≠ 0
  | some _ => true

/-- The trend labels used by the source. -/
def TREND_STRONG_UP : String := "強い上昇トレンド"

def TREND_REBOUND : String := "反発上昇の可能性"

def TREND_PULLBACK : String := "調整の可能性"

def TREND_DOWN : String := "下降トレンド"

def TREND_INSUFFICIENT : String := "データ不足でトレンド判定不可"

/-- `TechnicalAnalyzer.get_market_summary` on a dataframe. -/
def getMarketSummary (d : List Candle) : SummaryResult :=
  if d = [] then .emptyRes
  else
    let xs := closesOf d
    match xs.reverse with
    | [] => .err "index out of bounds"
    | [_] => .err "index out of bounds"
    | currentPrice :: prevPrice :: _ =>
      let priceChange := currentPrice - prevPrice
      let priceChangePct :=
        ((EF.fin priceChange).div (EF.fin prevPrice)).mul (.fin 100)
      let highs := d.map Candle.high
      let lows := d.map Candle.low
      let vols := d.map Candle.volume
      let high24 :=
        if 24 ≤ d.length then listMax (highs.drop (highs.length - 24))
        else listMax highs
      let low24 :=
        if 24 ≤ d.length then listMin (lows.drop (lows.length - 24))
        else listMin lows
      let volume24 :=
        if 24 ≤ d.length then (vols.drop (vols.length - 24)).sum
        else vols.sum
      let sma20 :=
        if 20 ≤ d.length then (rollingMeanQ 20 xs).getLast? else none
      let sma50 :=
        if 50 ≤ d.length then (rollingMeanQ 50 xs).getLast? else none
      let trend :=
        if truthy sma20 && truthy sma50 then
          let s20 := sma20.getD .nan
          let s50 := sma50.getD .nan
          if (EF.fin currentPrice).gtb s20 && s20.gtb s50 then
            TREND_STRONG_UP
          else if (EF.fin currentPrice).gtb s20 && s20.ltb s50 then
            TREND_REBOUND
          else if (EF.fin currentPrice).ltb s20 && s20.gtb s50 then
            TREND_PULLBACK
          else TREND_DOWN
        else TREND_INSUFFICIENT
      .ok ⟨currentPrice, priceChange, priceChangePct, high24, low24,
        volume24, trend⟩

/-- The trend label of a summary, when the success path was taken. -/
def summaryTrend : SummaryResult → Option String
  | .ok s => some s.trend
  | _ => none

/-! ## Concrete inputs used by witnesses and counterexamples -/

/-- A constant candle at price `q`. -/
def candleAt (q : ℚ) : Candle := ⟨0, q, q, q, q, 1⟩

/-- A single normalized row. -/
def candleA : Candle := candleAt 1

/-- Every fetch attempt of every adapter raises `NetworkError`. -/
def behAllNet : Behavior := fun _ _ _ _ _ => .netErr

/-- The P6 scenario: `kucoin` answers with one row, everyone else
raises `NetworkError` on every attempt. -/
def behC2A : Behavior := fun ex _ _ _ _ =>
  if ex = "kucoin" then .rows [candleA] else .netErr

/-- `coinbase` answers with one row, everyone else raises
`NetworkError` on every attempt. -/
def behC8 : Behavior := fun ex _ _ _ _ =>
  if ex = "coinbase" then .rows [candleA] else .netErr

/-! ## Fetcher lemmas -/

lemma tryFetchGo_allFail (beh : Behavior) (ex sym tf : String) (lim : Nat)
    (hfail : ∀ n, (beh ex sym tf lim n).isFailure) :
    ∀ r a, (tryFetchGo beh ex sym tf lim a r).1 = none := by
  intro r
  induction r with
  | zero => intro a; rfl
  | succ r ih =>
    intro a
    have h := hfail a
    unfold tryFetchGo
    rcases hb : beh ex sym tf lim a with d | _ | _
    · rw [hb] at h; exact absurd h (by simp [FetchOutcome.isFailure])
    · simp only
      split
      · rfl
      · exact ih (a + 1)
    · rfl

lemma tryFetchFromExchange_allFail (beh : Behavior) (ex sym tf : String)
    (lim : Nat) (hfail : ∀ n, (beh ex sym tf lim n).isFailure) :
    (tryFetchFromExchange beh ex sym tf lim).1 = [] := by
  have h := tryFetchGo_allFail beh ex sym tf lim hfail 3 0
  simp [tryFetchFromExchange, h]

lemma fetchFallbackLoop_allFail (beh : Behavior) (initOk : String → Bool)
    (sym tf : String) (lim : Nat)
    (hfail : ∀ ex n, (beh ex sym tf lim n).isFailure) :
    ∀ (fbs : List String) (exId : String) (tr : List TraceEntry),
      (fetchFallbackLoop beh initOk sym tf lim fbs exId tr).df = [] := by
  intro fbs
  induction fbs with
  | nil => intro exId tr; rfl
  | cons f rest ih =>
    intro exId tr
    unfold fetchFallbackLoop
    split
    · exact ih exId tr
    · split
      · have hdf := tryFetchFromExchange_allFail beh f sym tf lim (hfail f)
        simp only [hdf]
        simp only [ne_eq, not_true_eq_false, reduceIte, not_not]
        exact ih f _
      · exact ih f tr

/-- **C1.** For every symbol, timeframe and limit, `fetch_ohlcv` never
propagates an exception (the embedding is a total function: every
exception raised inside `_try_fetch_from_exchange` or the fallback loop
is caught there); whenever every adapter's every attempt fails —
`NetworkError` or any other exception — it returns an empty OHLCV frame,
so callers detect total failure by emptiness. -/
theorem fetch_ohlcv_empty_on_total_failure (beh : Behavior)
    (initOk : String → Bool) (sym tf : String) (lim : Nat)
    (primary : String) (fallbacks : List String)
    (hfail : ∀ ex n, (beh ex sym tf lim n).isFailure) :
    (fetchOhlcv beh initOk sym tf lim primary fallbacks).df = [] := by
  unfold fetchOhlcv
  have hdf := tryFetchFromExchange_allFail beh primary sym tf lim (hfail primary)
  simp only [hdf, ne_eq, not_true_eq_false, reduceIte, not_not]
  exact fetchFallbackLoop_allFail beh initOk sym tf lim hfail fallbacks primary _

/-- Witness for C1: with every attempt of every adapter raising
`NetworkError`, the frame returned for `BTC/USDT`, `1d`, limit 100 with
primary `kraken` and the configured fallback list is empty. -/
theorem fetch_ohlcv_empty_on_total_failure_witness :
    (fetchOhlcv behAllNet (fun _ => true) "BTC/USDT" "1d" 100 "kraken"
      FALLBACK_EXCHANGES).df = [] :=
  fetch_ohlcv_empty_on_total_failure behAllNet (fun _ => true) "BTC/USDT"
    "1d" 100 "kraken" FALLBACK_EXCHANGES (fun _ _ => trivial)

lemma tryFetchFromExchange_netErr3 (beh : Behavior) (ex sym tf : String)
    (lim : Nat) (h : ∀ n, beh ex sym tf lim n = .netErr) :
    tryFetchFromExchange beh ex sym tf lim = ([], 3, 4) := by
  simp [tryFetchFromExchange, tryFetchGo, h]

lemma tryFetchFromExchange_rows0 (beh : Behavior) (ex sym tf : String)
    (lim : Nat) (d : List Candle) (h : beh ex sym tf lim 0 = .rows d) :
    tryFetchFromExchange beh ex sym tf lim = (d, 1, 0) := by
  simp [tryFetchFromExchange, tryFetchGo, h]

/-- Counterexample to **C2** as stated.  First input: primary `kraken`
always raises `NetworkError`, fallbacks `coinbase` (always
`NetworkError`) and `kucoin` (returns one row): the call makes 7
attempts in total — 3 failed on the primary, 3 failed on the first
fallback and 1 successful on the second — not the 9 the claim asserts.
Second input: with primary `coinbase` and the configured fallback list
`["kraken", "coinbase", "kucoin", "bybit"]` all failing, `coinbase`
appears twice in the attempt trace: the skip test compares each fallback
against the *current* `self.exchange_id` (mutated to the fallback just
tried), so a fallback equal to the primary is *not* skipped unless the
primary is still current. -/
theorem fetch_ohlcv_seven_attempts_counterexample :
    (totalAttempts (fetchOhlcv behC2A (fun _ => true) "BTC/USDT" "1d" 100
        "kraken" ["coinbase", "kucoin"]).trace = 7 ∧
      totalAttempts (fetchOhlcv behC2A (fun _ => true) "BTC/USDT" "1d" 100
        "kraken" ["coinbase", "kucoin"]).trace ≠ 9) ∧
    ((fetchOhlcv behAllNet (fun _ => true) "BTC/USDT" "1d" 100 "coinbase"
        FALLBACK_EXCHANGES).trace.map Prod.fst).count "coinbase" = 2 := by
  decide

/-- **C2 (amended).**  `fetch_ohlcv` tries the primary first with at
most 3 attempts, a 2-second backoff after each non-final `NetworkError`
(4 seconds slept over 3 failed attempts) and immediate abort on a fatal
adapter error; a non-empty primary frame is returned without consulting
any fallback (second conjunct); otherwise fallbacks are tried in list
order, each with the same 3-attempt procedure, and the first non-empty
frame is returned.  In the P6 scenario — primary always `NetworkError`,
two distinct fallbacks of which only the second returns data — exactly
3 failed attempts occur on the primary, 3 on the first fallback and 1
successful attempt on the second: 7 attempts in total, none wasted
after the success. -/
theorem fetch_ohlcv_fallback_order (beh : Behavior) (initOk : String → Bool)
    (sym tf : String) (lim : Nat) (P F1 F2 : String) (data : List Candle)
    (hF1P : F1 ≠ P) (hF21 : F2 ≠ F1)
    (hP : ∀ n, beh P sym tf lim n = .netErr)
    (hF1 : ∀ n, beh F1 sym tf lim n = .netErr)
    (hF2 : beh F2 sym tf lim 0 = .rows data) (hne : data ≠ [])
    (hI1 : initOk F1 = true) (hI2 : initOk F2 = true) :
    (fetchOhlcv beh initOk sym tf lim P [F1, F2] =
      ⟨data, F2, [(P, 3, 4), (F1, 3, 4), (F2, 1, 0)]⟩) ∧
    (∀ (beh2 : Behavior) (P2 : String) (fbs : List String)
        (d2 : List Candle), beh2 P2 sym tf lim 0 = .rows d2 → d2 ≠ [] →
      fetchOhlcv beh2 initOk sym tf lim P2 fbs = ⟨d2, P2, [(P2, 1, 0)]⟩) := by
  constructor
  · have hPf := tryFetchFromExchange_netErr3 beh P sym tf lim hP
    have hF1f := tryFetchFromExchange_netErr3 beh F1 sym tf lim hF1
    have hF2f := tryFetchFromExchange_rows0 beh F2 sym tf lim data hF2
    simp [fetchOhlcv, fetchFallbackLoop, hPf, hF1f, hF2f, hF1P, hF21, hI1,
      hI2, hne]
  · intro beh2 P2 fbs d2 h2 hne2
    have hPf := tryFetchFromExchange_rows0 beh2 P2 sym tf lim d2 h2
    simp [fetchOhlcv, hPf, hne2]

/-- Witness for the amended C2: the P6 scenario instantiated with
primary `kraken`, fallbacks `coinbase` and `kucoin`. -/
theorem fetch_ohlcv_fallback_order_witness :
    fetchOhlcv behC2A (fun _ => true) "BTC/USDT" "1d" 100 "kraken"
      ["coinbase", "kucoin"] =
      ⟨[candleA], "kucoin", [("kraken", 3, 4), ("coinbase", 3, 4),
        ("kucoin", 1, 0)]⟩ :=
  (fetch_ohlcv_fallback_order behC2A (fun _ => true) "BTC/USDT" "1d" 100
    "kraken" "coinbase" "kucoin" [candleA] (by decide) (by decide)
    (fun _ => rfl) (fun _ => rfl) rfl (by decide) rfl rfl).1

/-- **C8** is a code bug: when the primary fails and a fallback
succeeds, `fetch_ohlcv` leaves `self.exchange_id` set to the fallback
(the saved `old_exchange_id` is never restored), so the next fetch
starts from a different adapter than the configured primary.  Evaluated
here: primary `kraken` always `NetworkError`, fallback `coinbase`
returns a row — after the call the fetcher's exchange id is `coinbase`,
not the configured `kraken`. -/
theorem fetch_ohlcv_mutates_exchange_id :
    (fetchOhlcv behC8 (fun _ => true) "BTC/USDT" "1d" 100 "kraken"
        FALLBACK_EXCHANGES).finalExchangeId = "coinbase" ∧
      ("coinbase" : String) ≠ "kraken" := by
  decide

/-- **C10.** `set_data` stores the new dataframe and resets the stored
indicator and signal dictionaries to empty; the analyzer state after
`set_data(s2)` is independent of any state computed from an earlier
series, so indicators and signals produced afterwards depend only on
the most recently set series. -/
theorem set_data_resets_state (sqrtQ : ℚ → ℚ) (st st' : AnalyzerState)
    (d : List Candle) :
    (setData d st).indicators = [] ∧ (setData d st).signals = [] ∧
    setData d st = setData d st' ∧
    calcAllSt sqrtQ (setData d st) = calcAllSt sqrtQ (setData d st') ∧
    generateSignalsSt sqrtQ (setData d st) =
      generateSignalsSt sqrtQ (setData d st') :=
  ⟨rfl, rfl, rfl, rfl, rfl⟩

/-! ## EMA lemmas -/

lemma length_emaGo (α : ℚ) : ∀ (xs : List ℚ) (prev : ℚ),
    (emaGo α prev xs).length = xs.length := by
  intro xs
  induction xs with
  | nil => intro prev; rfl
  | cons x rest ih => intro prev; simp [emaGo, ih]

lemma length_emaQ (p : Nat) (xs : List ℚ) :
    (emaQ p xs).length = xs.length := by
  cases xs with
  | nil => rfl
  | cons x rest => simp [emaQ, length_emaGo]

lemma emaGo_get?_zero (α prev : ℚ) (xs : List ℚ) :
    (emaGo α prev xs).get? 0 =
      (xs.get? 0).map fun x => α * x + (1 - α) * prev := by
  cases xs <;> simp [emaGo]

lemma emaGo_get?_succ (α : ℚ) : ∀ (xs : List ℚ) (prev : ℚ) (i : Nat),
    (emaGo α prev xs).get? (i + 1) =
      Option.map₂ (fun x e => α * x + (1 - α) * e) (xs.get? (i + 1))
        ((emaGo α prev xs).get? i) := by
  intro xs
  induction xs with
  | nil => intro prev i; simp [emaGo]
  | cons x rest ih =>
    intro prev i
    cases i with
    | zero =>
      cases rest <;> simp [emaGo, Option.map₂]
    | succ j =>
      simp only [emaGo, List.get?_cons_succ]
      rw [ih]

/-- **C6.** The computed EMA satisfies exactly the `adjust=false`
recursion with `α = 2/(p+1)`: it is aligned with the input, seeded by
the first data point (no SMA warm-up seed), every later position obeys
`EMA[t] = α·close[t] + (1-α)·EMA[t-1]`, and on `[c0, c1, c2]` in
particular `EMA[0] = c0` and `EMA[1] = α·c1 + (1-α)·c0`. -/
theorem ema_adjust_false_recursion (p : Nat) (xs : List ℚ) :
    ((emaQ p xs).length = xs.length) ∧
    ((emaQ p xs).get? 0 = xs.get? 0) ∧
    (∀ i, (emaQ p xs).get? (i + 1) =
      Option.map₂ (fun c e => (2 / ((p : ℚ) + 1)) * c +
        (1 - 2 / ((p : ℚ) + 1)) * e) (xs.get? (i + 1))
        ((emaQ p xs).get? i)) ∧
    (∀ c0 c1 c2 : ℚ, (emaQ p [c0, c1, c2]).get? 0 = some c0 ∧
      (emaQ p [c0, c1, c2]).get? 1 =
        some ((2 / ((p : ℚ) + 1)) * c1 + (1 - 2 / ((p : ℚ) + 1)) * c0)) := by
  refine ⟨length_emaQ p xs, ?_, ?_, ?_⟩
  · cases xs <;> simp [emaQ]
  · intro i
    cases xs with
    | nil => simp [emaQ]
    | cons x rest =>
      simp only [emaQ, List.get?_cons_succ]
      cases i with
      | zero =>
        cases rest <;> simp [emaGo, Option.map₂]
      | succ j =>
        rw [emaGo_get?_succ]
        simp
  · intro c0 c1 c2
    exact ⟨rfl, rfl⟩

/-! ## Indicator alignment lemmas -/

lemma length_rollingMeanQ (w : Nat) (xs : List ℚ) :
    (rollingMeanQ w xs).length = xs.length := by
  simp [rollingMeanQ]

lemma length_rollingStdQ (sqrtQ : ℚ → ℚ) (w : Nat) (xs : List ℚ) :
    (rollingStdQ sqrtQ w xs).length = xs.length := by
  simp [rollingStdQ]

lemma rollingMeanQ_getElem? (w : Nat) (xs : List ℚ) (i : Nat)
    (h : i < xs.length) :
    (rollingMeanQ w xs)[i]? =
      some (if i + 1 < w then EF.nan else .fin (meanAt xs i w)) := by
  simp [rollingMeanQ, List.getElem?_range, h]

lemma rollingStdQ_getElem? (sqrtQ : ℚ → ℚ) (w : Nat) (xs : List ℚ)
    (i : Nat) (h : i < xs.length) :
    (rollingStdQ sqrtQ w xs)[i]? =
      some (if i + 1 < w then EF.nan else .fin (sqrtQ (sampleVarAt xs i w))) := by
  simp [rollingStdQ, List.getElem?_range, h]

lemma length_gains (xs : List ℚ) : (gains xs).length = xs.length := by
  cases xs with
  | nil => rfl
  | cons x rest => simp [gains]

lemma length_losses (xs : List ℚ) : (losses xs).length = xs.length := by
  cases xs with
  | nil => rfl
  | cons x rest => simp [losses]

lemma length_rsList (xs : List ℚ) : (rsList xs).length = xs.length := by
  simp [rsList, length_rollingMeanQ, length_gains, length_losses]

lemma length_rsiList (xs : List ℚ) : (rsiList xs).length = xs.length := by
  simp [rsiList, length_rsList]

lemma length_macdLine (xs : List ℚ) : (macdLine xs).length = xs.length := by
  simp [macdLine, length_emaQ]

lemma length_macdSignalLine (xs : List ℚ) :
    (macdSignalLine xs).length = xs.length := by
  simp [macdSignalLine, length_emaQ, length_macdLine]

lemma length_macdHistLine (xs : List ℚ) :
    (macdHistLine xs).length = xs.length := by
  simp [macdHistLine, length_macdLine, length_macdSignalLine]

lemma length_bbUpper (sqrtQ : ℚ → ℚ) (xs : List ℚ) :
    (bbUpper sqrtQ xs).length = xs.length := by
  simp [bbUpper, length_rollingMeanQ, length_rollingStdQ]

lemma length_bbLower (sqrtQ : ℚ → ℚ) (xs : List ℚ) :
    (bbLower sqrtQ xs).length = xs.length := by
  simp [bbLower, length_rollingMeanQ, length_rollingStdQ]

lemma gains_nonneg (xs : List ℚ) : ∀ q ∈ gains xs, 0 ≤ q := by
  intro q hq
  cases xs with
  | nil => simp [gains] at hq
  | cons x rest =>
    simp only [gains, List.mem_cons, List.mem_map] at hq
    rcases hq with rfl | ⟨d, _, rfl⟩
    · exact le_rfl
    · by_cases h : 0 < d
      · simpa [h] using h.le
      · simp [h]

lemma losses_nonneg (xs : List ℚ) : ∀ q ∈ losses xs, 0 ≤ q := by
  intro q hq
  cases xs with
  | nil => simp [losses] at hq
  | cons x rest =>
    simp only [losses, List.mem_cons, List.mem_map] at hq
    rcases hq with rfl | ⟨d, _, rfl⟩
    · exact le_rfl
    · by_cases h : d < 0
      · simp only [h, reduceIte]
        linarith
      · simp [h]

lemma windowSum_nonneg (xs : List ℚ) (i w : Nat)
    (hx : ∀ q ∈ xs, 0 ≤ q) : 0 ≤ windowSum xs i w :=
  List.sum_nonneg fun q hq =>
    hx q (List.mem_of_mem_take (List.mem_of_mem_drop hq))

lemma meanAt_nonneg (xs : List ℚ) (i w : Nat)
    (hx : ∀ q ∈ xs, 0 ≤ q) : 0 ≤ meanAt xs i w :=
  div_nonneg (windowSum_nonneg xs i w hx) (by positivity)

/-- The value of RSI at one position, as a function of the two trailing
averages. -/
lemma rsiList_getElem? (xs : List ℚ) (i : Nat) (h : i < xs.length) :
    (rsiList xs)[i]? = some
      ((EF.fin 100).sub ((EF.fin 100).div ((EF.fin 1).add
        (EF.div
          (if i + 1 < RSI_PERIOD then EF.nan
            else .fin (meanAt (gains xs) i RSI_PERIOD))
          (if i + 1 < RSI_PERIOD then EF.nan
            else .fin (meanAt (losses xs) i RSI_PERIOD)))))) := by
  have hg : i < (gains xs).length := by rw [length_gains]; exact h
  have hl : i < (losses xs).length := by rw [length_losses]; exact h
  simp only [rsiList, rsList, List.getElem?_map, List.getElem?_zipWith,
    rollingMeanQ_getElem? RSI_PERIOD (gains xs) i hg,
    rollingMeanQ_getElem? RSI_PERIOD (losses xs) i hl]
  rfl

/-- The four arithmetic cases for RSI at a warmed-up position. -/
lemma rsiAt_cases (g l : ℚ) (hg : 0 ≤ g) (hl : 0 ≤ l) :
    (EF.fin 100).sub ((EF.fin 100).div ((EF.fin 1).add
        (EF.div (.fin g) (.fin l)))) =
      if g = 0 ∧ l = 0 then EF.nan
      else if l = 0 then .fin 100
      else .fin (100 - 100 / (1 + g / l)) := by
  by_cases h0 : l = 0
  · subst h0
    rcases lt_or_eq_of_le hg with hgpos | hg0
    · have hne : ¬(g = 0 ∧ (0 : ℚ) = 0) := fun ⟨hg0, _⟩ => by
        rw [hg0] at hgpos; exact lt_irrefl 0 hgpos
      simp [EF.div, EF.add, EF.sub, EF.neg, hgpos, hne,
        not_lt_of_lt hgpos, ne_of_gt hgpos]
    · simp [← hg0, EF.div, EF.add, EF.sub, EF.neg]
  · have hlpos : 0 < l := lt_of_le_of_ne hl (Ne.symm h0)
    have hq : 0 ≤ g / l := div_nonneg hg hl
    have h1 : (1 : ℚ) + g / l ≠ 0 := by linarith
    have hne : ¬(g = 0 ∧ l = 0) := fun hand => h0 hand.2
    simp [EF.div, EF.add, EF.sub, EF.neg, h0, h1, hne]
    ring

lemma sma_family_defined (w : Nat) (xs : List ℚ) (i : Nat)
    (h : i < xs.length) :
    (i + 1 < w → (rollingMeanQ w xs)[i]? = some EF.nan) ∧
    (w ≤ i + 1 → ∃ q, (rollingMeanQ w xs)[i]? = some (EF.fin q)) := by
  constructor <;> intro hw
  · simp [rollingMeanQ_getElem? w xs i h, hw]
  · exact ⟨meanAt xs i w,
      by simp [rollingMeanQ_getElem? w xs i h, Nat.not_lt.mpr hw]⟩

lemma bbUpper_getElem? (sqrtQ : ℚ → ℚ) (xs : List ℚ) (i : Nat)
    (h : i < xs.length) :
    (bbUpper sqrtQ xs)[i]? = some (if i + 1 < 20 then EF.nan
      else .fin (meanAt xs i 20 + sqrtQ (sampleVarAt xs i 20) * 2)) := by
  simp only [bbUpper, List.getElem?_zipWith, List.getElem?_map,
    rollingMeanQ_getElem? 20 xs i h, rollingStdQ_getElem? sqrtQ 20 xs i h]
  by_cases hw : i + 1 < 20 <;> simp [hw, EF.mul, EF.add]

lemma bbLower_getElem? (sqrtQ : ℚ → ℚ) (xs : List ℚ) (i : Nat)
    (h : i < xs.length) :
    (bbLower sqrtQ xs)[i]? = some (if i + 1 < 20 then EF.nan
      else .fin (meanAt xs i 20 - sqrtQ (sampleVarAt xs i 20) * 2)) := by
  simp only [bbLower, List.getElem?_zipWith, List.getElem?_map,
    rollingMeanQ_getElem? 20 xs i h, rollingStdQ_getElem? sqrtQ 20 xs i h]
  by_cases hw : i + 1 < 20 <;>
    simp [hw, EF.mul, EF.sub, EF.neg, EF.add, sub_eq_add_neg]

lemma bbUpper_defined (sqrtQ : ℚ → ℚ) (xs : List ℚ) (i : Nat)
    (h : i < xs.length) :
    (i + 1 < 20 → (bbUpper sqrtQ xs)[i]? = some EF.nan) ∧
    (20 ≤ i + 1 → ∃ q, (bbUpper sqrtQ xs)[i]? = some (EF.fin q)) := by
  constructor <;> intro hw
  · simp [bbUpper_getElem? sqrtQ xs i h, hw]
  · exact ⟨meanAt xs i 20 + sqrtQ (sampleVarAt xs i 20) * 2,
      by simp [bbUpper_getElem? sqrtQ xs i h, Nat.not_lt.mpr hw]⟩

lemma bbLower_defined (sqrtQ : ℚ → ℚ) (xs : List ℚ) (i : Nat)
    (h : i < xs.length) :
    (i + 1 < 20 → (bbLower sqrtQ xs)[i]? = some EF.nan) ∧
    (20 ≤ i + 1 → ∃ q, (bbLower sqrtQ xs)[i]? = some (EF.fin q)) := by
  constructor <;> intro hw
  · simp [bbLower_getElem? sqrtQ xs i h, hw]
  · exact ⟨meanAt xs i 20 - sqrtQ (sampleVarAt xs i 20) * 2,
      by simp [bbLower_getElem? sqrtQ xs i h, Nat.not_lt.mpr hw]⟩

lemma map_fin_defined (ys : List ℚ) (i : Nat) (h : i < ys.length) :
    ∃ q, (ys.map EF.fin)[i]? = some (EF.fin q) :=
  ⟨ys.get ⟨i, h⟩, by simp [List.getElem?_map, List.getElem?_eq_getElem h]⟩

lemma rsi_defined (xs : List ℚ) (i : Nat) (h : i < xs.length) :
    (i + 1 < RSI_PERIOD → (rsiList xs)[i]? = some EF.nan) ∧
    (RSI_PERIOD ≤ i + 1 →
      ((rsiList xs)[i]? = some EF.nan ↔
        meanAt (gains xs) i RSI_PERIOD = 0 ∧
        meanAt (losses xs) i RSI_PERIOD = 0)) := by
  constructor <;> intro hw
  · simp [rsiList_getElem? xs i h, hw, EF.div, EF.add, EF.sub, EF.neg]
  · have hg := meanAt_nonneg (gains xs) i RSI_PERIOD (gains_nonneg xs)
    have hl := meanAt_nonneg (losses xs) i RSI_PERIOD (losses_nonneg xs)
    have hcond : ¬(i + 1 < RSI_PERIOD) := Nat.not_lt.mpr hw
    rw [rsiList_getElem? xs i h]
    simp only [hcond, if_false]
    rw [rsiAt_cases _ _ hg hl]
    split_ifs with h1 h2 <;> simp_all

/-! ## Lookup equations for the indicator dictionary -/

lemma lookup_sma20 (sqrtQ : ℚ → ℚ) (d : List Candle) (hne : d ≠ []) :
    (calculateAllIndicators sqrtQ d).lookup "sma_20" =
      some (rollingMeanQ 20 (closesOf d)) := by
  simp [calculateAllIndicators, hne, List.lookup]

lemma lookup_sma50 (sqrtQ : ℚ → ℚ) (d : List Candle) (hne : d ≠ []) :
    (calculateAllIndicators sqrtQ d).lookup "sma_50" =
      some (rollingMeanQ 50 (closesOf d)) := by
  simp [calculateAllIndicators, hne, List.lookup]

lemma lookup_sma200 (sqrtQ : ℚ → ℚ) (d : List Candle) (hne : d ≠ []) :
    (calculateAllIndicators sqrtQ d).lookup "sma_200" =
      some (rollingMeanQ 200 (closesOf d)) := by
  simp [calculateAllIndicators, hne, List.lookup]

lemma lookup_ema9 (sqrtQ : ℚ → ℚ) (d : List Candle) (hne : d ≠ []) :
    (calculateAllIndicators sqrtQ d).lookup "ema_9" =
      some ((emaQ 9 (closesOf d)).map EF.fin) := by
  simp [calculateAllIndicators, hne, List.lookup]

lemma lookup_ema21 (sqrtQ : ℚ → ℚ) (d : List Candle) (hne : d ≠ []) :
    (calculateAllIndicators sqrtQ d).lookup "ema_21" =
      some ((emaQ 21 (closesOf d)).map EF.fin) := by
  simp [calculateAllIndicators, hne, List.lookup]

lemma lookup_ema55 (sqrtQ : ℚ → ℚ) (d : List Candle) (hne : d ≠ []) :
    (calculateAllIndicators sqrtQ d).lookup "ema_55" =
      some ((emaQ 55 (closesOf d)).map EF.fin) := by
  simp [calculateAllIndicators, hne, List.lookup]

lemma lookup_ema200 (sqrtQ : ℚ → ℚ) (d : List Candle) (hne : d ≠ []) :
    (calculateAllIndicators sqrtQ d).lookup "ema_200" =
      some ((emaQ 200 (closesOf d)).map EF.fin) := by
  simp [calculateAllIndicators, hne, List.lookup]

lemma lookup_rsi (sqrtQ : ℚ → ℚ) (d : List Candle) (hne : d ≠ []) :
    (calculateAllIndicators sqrtQ d).lookup "rsi" =
      some (rsiList (closesOf d)) := by
  simp [calculateAllIndicators, hne, List.lookup]

lemma lookup_macd (sqrtQ : ℚ → ℚ) (d : List Candle) (hne : d ≠ []) :
    (calculateAllIndicators sqrtQ d).lookup "macd" =
      some ((macdLine (closesOf d)).map EF.fin) := by
  simp [calculateAllIndicators, hne, List.lookup]

lemma lookup_macdSignal (sqrtQ : ℚ → ℚ) (d : List Candle) (hne : d ≠ []) :
    (calculateAllIndicators sqrtQ d).lookup "macd_signal" =
      some ((macdSignalLine (closesOf d)).map EF.fin) := by
  simp [calculateAllIndicators, hne, List.lookup]

lemma lookup_macdHist (sqrtQ : ℚ → ℚ) (d : List Candle) (hne : d ≠ []) :
    (calculateAllIndicators sqrtQ d).lookup "macd_hist" =
      some ((macdHistLine (closesOf d)).map EF.fin) := by
  simp [calculateAllIndicators, hne, List.lookup]

lemma lookup_bbUpper (sqrtQ : ℚ → ℚ) (d : List Candle) (hne : d ≠ []) :
    (calculateAllIndicators sqrtQ d).lookup "bb_upper" =
      some (bbUpper sqrtQ (closesOf d)) := by
  simp [calculateAllIndicators, hne, List.lookup]

lemma lookup_bbMiddle (sqrtQ : ℚ → ℚ) (d : List Candle) (hne : d ≠ []) :
    (calculateAllIndicators sqrtQ d).lookup "bb_middle" =
      some (rollingMeanQ 20 (closesOf d)) := by
  simp [calculateAllIndicators, hne, List.lookup]

lemma lookup_bbLower (sqrtQ : ℚ → ℚ) (d : List Candle) (hne : d ≠ []) :
    (calculateAllIndicators sqrtQ d).lookup "bb_lower" =
      some (bbLower sqrtQ (closesOf d)) := by
  simp [calculateAllIndicators, hne, List.lookup]

/-! ## Constant-series facts -/

lemma zipWith_sub_const (q : ℚ) : ∀ m : Nat,
    List.zipWith (fun a b => a - b) (List.replicate m q)
      (q :: List.replicate m q) = List.replicate m 0 := by
  intro m
  induction m with
  | zero => rfl
  | succ k ih =>
    simp only [List.replicate_succ, List.zipWith_cons_cons, sub_self]
    rw [ih]

lemma gains_const (q : ℚ) (n : Nat) :
    gains (List.replicate n q) = List.replicate n 0 := by
  cases n with
  | zero => rfl
  | succ m =>
    show gains (q :: List.replicate m q) = List.replicate (m + 1) 0
    simp only [gains, zipWith_sub_const, List.map_replicate,
      List.replicate_succ, lt_irrefl, if_false]

lemma losses_const (q : ℚ) (n : Nat) :
    losses (List.replicate n q) = List.replicate n 0 := by
  cases n with
  | zero => rfl
  | succ m =>
    show losses (q :: List.replicate m q) = List.replicate (m + 1) 0
    simp only [losses, zipWith_sub_const, List.map_replicate,
      List.replicate_succ, lt_irrefl, if_false]

lemma meanAt_replicate_zero (n i w : Nat) :
    meanAt (List.replicate n (0 : ℚ)) i w = 0 := by
  simp [meanAt, windowSum, List.take_replicate, List.drop_replicate,
    List.sum_replicate]

/-- Counterexample to **C4** as stated, at the 14-candle constant
series `[10, 10, ..., 10]`.  The `ema_9` member is numeric already at
position `0 < 9 - 1` (an `adjust=false` EMA has no undefined warm-up
positions), and the `rsi` member is NaN at position `13 ≥ 14 - 1` (the
trailing average gain and loss are both zero, `0/0` is NaN): the warm-up
pattern claimed — "exactly the positions below `period-1` undefined,
every later position numeric" — fails in both directions. -/
theorem indicator_alignment_counterexample :
    (∃ s, (calculateAllIndicators (fun q => q)
        (List.replicate 14 (candleAt 10))).lookup "ema_9" = some s ∧
      s[0]? = some (EF.fin 10)) ∧
    (0 : Nat) < 9 - 1 ∧
    (∃ s, (calculateAllIndicators (fun q => q)
        (List.replicate 14 (candleAt 10))).lookup "rsi" = some s ∧
      s[13]? = some EF.nan) ∧
    RSI_PERIOD - 1 ≤ 13 := by
  have hne : (List.replicate 14 (candleAt 10) : List Candle) ≠ [] := by
    simp
  have hclose : closesOf (List.replicate 14 (candleAt 10)) =
      List.replicate 14 (10 : ℚ) := by
    simp [closesOf, candleAt]
  refine ⟨⟨_, lookup_ema9 _ _ hne, ?_⟩, by norm_num,
    ⟨_, lookup_rsi _ _ hne, ?_⟩, by norm_num [RSI_PERIOD]⟩
  · rw [hclose]
    rfl
  · rw [hclose]
    have h13 : (13 : Nat) < (List.replicate 14 (10 : ℚ)).length := by simp
    rw [(rsi_defined (List.replicate 14 (10 : ℚ)) 13 h13).2
      (by norm_num [RSI_PERIOD])]
    rw [gains_const, losses_const]
    exact ⟨meanAt_replicate_zero 14 13 RSI_PERIOD,
      meanAt_replicate_zero 14 13 RSI_PERIOD⟩

/-- **C4 (amended).** For every non-empty OHLCV series of length N,
every Indicator Set member returned by `calculate_all_indicators` has
length N.  The warm-up pattern differs by family: SMA and Bollinger
members are undefined exactly at positions `< period-1` and numeric
from `period-1` on; EMA and MACD members are numeric at *every*
position (`adjust=false` averaging needs no warm-up); RSI is undefined
at positions `< period-1` and, from `period-1` on, is NaN exactly when
the trailing average gain and average loss are both zero, numeric
otherwise. -/
theorem indicator_alignment (sqrtQ : ℚ → ℚ) (d : List Candle)
    (hne : d ≠ []) :
    (∀ e ∈ calculateAllIndicators sqrtQ d, e.2.length = d.length) ∧
    (∀ w k, (w, k) ∈ [(20, "sma_20"), (50, "sma_50"), (200, "sma_200"),
        (20, "bb_middle"), (20, "bb_upper"), (20, "bb_lower")] →
      ∀ s, (calculateAllIndicators sqrtQ d).lookup k = some s →
        ∀ i, i < d.length →
          (i + 1 < w → s[i]? = some EF.nan) ∧
          (w ≤ i + 1 → ∃ q, s[i]? = some (EF.fin q))) ∧
    (∀ k, k ∈ ["ema_9", "ema_21", "ema_55", "ema_200", "macd",
        "macd_signal", "macd_hist"] →
      ∀ s, (calculateAllIndicators sqrtQ d).lookup k = some s →
        ∀ i, i < d.length → ∃ q, s[i]? = some (EF.fin q)) ∧
    (∀ s, (calculateAllIndicators sqrtQ d).lookup "rsi" = some s →
      ∀ i, i < d.length →
        (i + 1 < RSI_PERIOD → s[i]? = some EF.nan) ∧
        (RSI_PERIOD ≤ i + 1 →
          (s[i]? = some EF.nan ↔
            meanAt (gains (closesOf d)) i RSI_PERIOD = 0 ∧
            meanAt (losses (closesOf d)) i RSI_PERIOD = 0))) := by
  have hlen : (closesOf d).length = d.length := by simp [closesOf]
  refine ⟨?_, ?_, ?_, ?_⟩
  · intro e he
    simp only [calculateAllIndicators, hne, if_false] at he
    simp only [List.mem_cons, List.not_mem_nil, or_false] at he
    rcases he with rfl | rfl | rfl | rfl | rfl | rfl | rfl | rfl | rfl |
      rfl | rfl | rfl | rfl | rfl <;>
      simp [length_rollingMeanQ, length_emaQ, length_rsiList,
        length_macdLine, length_macdSignalLine, length_macdHistLine,
        length_bbUpper, length_bbLower, hlen]
  · intro w k hmem s hs i hi
    have hi2 : i < (closesOf d).length := by rw [hlen]; exact hi
    simp only [List.mem_cons, List.not_mem_nil, or_false,
      Prod.mk.injEq] at hmem
    rcases hmem with ⟨rfl, rfl⟩ | ⟨rfl, rfl⟩ | ⟨rfl, rfl⟩ | ⟨rfl, rfl⟩ |
        ⟨rfl, rfl⟩ | ⟨rfl, rfl⟩
    · rw [lookup_sma20 sqrtQ d hne] at hs
      obtain rfl : s = _ := (Option.some.inj hs).symm
      exact sma_family_defined 20 _ i hi2
    · rw [lookup_sma50 sqrtQ d hne] at hs
      obtain rfl : s = _ := (Option.some.inj hs).symm
      exact sma_family_defined 50 _ i hi2
    · rw [lookup_sma200 sqrtQ d hne] at hs
      obtain rfl : s = _ := (Option.some.inj hs).symm
      exact sma_family_defined 200 _ i hi2
    · rw [lookup_bbMiddle sqrtQ d hne] at hs
      obtain rfl : s = _ := (Option.some.inj hs).symm
      exact sma_family_defined 20 _ i hi2
    · rw [lookup_bbUpper sqrtQ d hne] at hs
      obtain rfl : s = _ := (Option.some.inj hs).symm
      exact bbUpper_defined sqrtQ _ i hi2
    · rw [lookup_bbLower sqrtQ d hne] at hs
      obtain rfl : s = _ := (Option.some.inj hs).symm
      exact bbLower_defined sqrtQ _ i hi2
  · intro k hmem s hs i hi
    have hi2 : i < (closesOf d).length := by rw [hlen]; exact hi
    simp only [List.mem_cons, List.not_mem_nil, or_false] at hmem
    rcases hmem with rfl | rfl | rfl | rfl | rfl | rfl | rfl
    · rw [lookup_ema9 sqrtQ d hne] at hs
      obtain rfl : s = _ := (Option.some.inj hs).symm
      exact map_fin_defined _ i (by rw [length_emaQ]; exact hi2)
    · rw [lookup_ema21 sqrtQ d hne] at hs
      obtain rfl : s = _ := (Option.some.inj hs).symm
      exact map_fin_defined _ i (by rw [length_emaQ]; exact hi2)
    · rw [lookup_ema55 sqrtQ d hne] at hs
      obtain rfl : s = _ := (Option.some.inj hs).symm
      exact map_fin_defined _ i (by rw [length_emaQ]; exact hi2)
    · rw [lookup_ema200 sqrtQ d hne] at hs
      obtain rfl : s = _ := (Option.some.inj hs).symm
      exact map_fin_defined _ i (by rw [length_emaQ]; exact hi2)
    · rw [lookup_macd sqrtQ d hne] at hs
      obtain rfl : s = _ := (Option.some.inj hs).symm
      exact map_fin_defined _ i (by rw [length_macdLine]; exact hi2)
    · rw [lookup_macdSignal sqrtQ d hne] at hs
      obtain rfl : s = _ := (Option.some.inj hs).symm
      exact map_fin_defined _ i (by rw [length_macdSignalLine]; exact hi2)
    · rw [lookup_macdHist sqrtQ d hne] at hs
      obtain rfl : s = _ := (Option.some.inj hs).symm
      exact map_fin_defined _ i (by rw [length_macdHistLine]; exact hi2)
  · intro s hs i hi
    have hi2 : i < (closesOf d).length := by rw [hlen]; exact hi
    rw [lookup_rsi sqrtQ d hne] at hs
    obtain rfl : s = _ := (Option.some.inj hs).symm
    exact rsi_defined _ i hi2

/-- Witness for the amended C4: on the 2-candle constant series, the
`rsi` member is NaN at warm-up position 1. -/
theorem indicator_alignment_witness :
    (List.replicate 2 (candleAt 10) : List Candle) ≠ [] ∧
    (rsiList (closesOf (List.replicate 2 (candleAt 10))))[1]? =
      some EF.nan :=
  ⟨by simp,
    ((indicator_alignment (fun q => q) (List.replicate 2 (candleAt 10))
        (by simp)).2.2.2 _ (lookup_rsi _ _ (by simp)) 1 (by simp)).1
      (by norm_num [RSI_PERIOD])⟩

/-! ## Signal generator lemmas -/

lemma last2_of_two_le (xs : List EF) (h : 2 ≤ xs.length) :
    ∃ a b, last2 xs = some (a, b) ∧ xs.getLast? = some b := by
  match hr : xs.reverse with
  | [] =>
    rw [List.reverse_eq_nil_iff] at hr
    subst hr
    simp at h
  | [b] =>
    have hlen := congrArg List.length hr
    simp only [List.length_reverse, List.length_cons,
      List.length_nil] at hlen
    omega
  | b :: a :: t =>
    refine ⟨a, b, by simp [last2, hr], ?_⟩
    rw [← List.head?_reverse, hr]
    rfl

lemma emaCrossSignal_ok (sqrtQ : ℚ → ℚ) (d : List Candle)
    (hne : d ≠ []) :
    ∃ v, emaCrossSignal (calculateAllIndicators sqrtQ d) = .ok (some v) := by
  by_cases h2 : 2 ≤ d.length
  · obtain ⟨a9, b9, h9, hl9⟩ :=
      last2_of_two_le ((emaQ 9 (closesOf d)).map EF.fin)
        (by simpa [length_emaQ, closesOf] using h2)
    obtain ⟨a55, b55, h55, hl55⟩ :=
      last2_of_two_le ((emaQ 55 (closesOf d)).map EF.fin)
        (by simpa [length_emaQ, closesOf] using h2)
    by_cases hgt : b9.gtb b55
    · refine ⟨if a9.leb a55 then "BUY" else "NEUTRAL", ?_⟩
      simp [emaCrossSignal, lookup_ema9 sqrtQ d hne,
        lookup_ema55 sqrtQ d hne, h9, h55, hl9, hl55, hgt]
    · by_cases hlt : b9.ltb b55
      · refine ⟨if a9.geb a55 then "SELL" else "NEUTRAL", ?_⟩
        simp [emaCrossSignal, lookup_ema9 sqrtQ d hne,
          lookup_ema55 sqrtQ d hne, h9, h55, hl9, hl55, hgt, hlt]
      · refine ⟨"NEUTRAL", ?_⟩
        simp [emaCrossSignal, lookup_ema9 sqrtQ d hne,
          lookup_ema55 sqrtQ d hne, hl9, hl55, hgt, hlt]
  · obtain ⟨c, rfl⟩ := List.length_eq_one.mp
      (show d.length = 1 by have := List.length_pos.mpr hne; omega)
    refine ⟨"NEUTRAL", ?_⟩
    simp [emaCrossSignal, lookup_ema9 sqrtQ [c] (by simp),
      lookup_ema55 sqrtQ [c] (by simp), closesOf, emaQ, emaGo,
      EF.gtb, EF.ltb]

lemma macdCrossSignal_ok (sqrtQ : ℚ → ℚ) (d : List Candle)
    (hne : d ≠ []) :
    ∃ v, macdCrossSignal (calculateAllIndicators sqrtQ d) = .ok (some v) := by
  by_cases h2 : 2 ≤ d.length
  · obtain ⟨am, bm, hm, hlm⟩ :=
      last2_of_two_le ((macdLine (closesOf d)).map EF.fin)
        (by simpa [length_macdLine, closesOf] using h2)
    obtain ⟨as, bs, hsg, hls⟩ :=
      last2_of_two_le ((macdSignalLine (closesOf d)).map EF.fin)
        (by simpa [length_macdSignalLine, closesOf] using h2)
    by_cases hgt : bm.gtb bs
    · refine ⟨if am.leb as then "BUY" else "NEUTRAL", ?_⟩
      simp [macdCrossSignal, lookup_macd sqrtQ d hne,
        lookup_macdSignal sqrtQ d hne, hm, hsg, hlm, hls, hgt]
    · by_cases hlt : bm.ltb bs
      · refine ⟨if am.geb as then "SELL" else "NEUTRAL", ?_⟩
        simp [macdCrossSignal, lookup_macd sqrtQ d hne,
          lookup_macdSignal sqrtQ d hne, hm, hsg, hlm, hls, hgt, hlt]
      · refine ⟨"NEUTRAL", ?_⟩
        simp [macdCrossSignal, lookup_macd sqrtQ d hne,
          lookup_macdSignal sqrtQ d hne, hlm, hls, hgt, hlt]
  · obtain ⟨c, rfl⟩ := List.length_eq_one.mp
      (show d.length = 1 by have := List.length_pos.mpr hne; omega)
    refine ⟨"NEUTRAL", ?_⟩
    simp [macdCrossSignal, lookup_macd sqrtQ [c] (by simp),
      lookup_macdSignal sqrtQ [c] (by simp), closesOf, macdLine,
      macdSignalLine, emaQ, emaGo, EF.gtb, EF.ltb]

lemma rsiSignal_ok (sqrtQ : ℚ → ℚ) (d : List Candle) (hne : d ≠ []) :
    ∃ v, rsiSignal (calculateAllIndicators sqrtQ d) = .ok (some v) ∧
      ((rsiList (closesOf d)).getLast? = some EF.nan → v = "NEUTRAL") ∧
      ((rsiList (closesOf d)).getLast? = some (EF.fin 100) → v = "SELL") := by
  cases hx : (rsiList (closesOf d)).getLast? with
  | none =>
    rw [List.getLast?_eq_none_iff] at hx
    have := congrArg List.length hx
    rw [length_rsiList] at this
    simp [closesOf] at this
    exact absurd this hne
  | some lv =>
    refine ⟨if lv.ltb (.fin 30) then "BUY"
      else if lv.gtb (.fin 70) then "SELL" else "NEUTRAL",
      by simp [rsiSignal, lookup_rsi sqrtQ d hne, hx], ?_, ?_⟩
    · intro hnan
      obtain rfl := Option.some.inj hnan
      simp [EF.ltb, EF.gtb]
    · intro h100
      obtain rfl := Option.some.inj h100
      norm_num [EF.ltb, EF.gtb]

lemma bbandsSignal_ok (sqrtQ : ℚ → ℚ) (d : List Candle) (hne : d ≠ []) :
    ∃ v, bbandsSignal (calculateAllIndicators sqrtQ d) (some d) =
        .ok (some v) ∧
      ((bbUpper sqrtQ (closesOf d)).getLast? = some EF.nan →
        (bbLower sqrtQ (closesOf d)).getLast? = some EF.nan →
        v = "NEUTRAL") := by
  have hcl : closesOf d ≠ [] := by simpa [closesOf] using hne
  cases hc : (closesOf d).getLast? with
  | none => rw [List.getLast?_eq_none_iff] at hc; exact absurd hc hcl
  | some c =>
    cases hu : (bbUpper sqrtQ (closesOf d)).getLast? with
    | none =>
      rw [List.getLast?_eq_none_iff] at hu
      have := congrArg List.length hu
      rw [length_bbUpper] at this
      simp at this
      exact absurd this hcl
    | some u =>
      cases hl : (bbLower sqrtQ (closesOf d)).getLast? with
      | none =>
        rw [List.getLast?_eq_none_iff] at hl
        have := congrArg List.length hl
        rw [length_bbLower] at this
        simp at this
        exact absurd this hcl
      | some l =>
        refine ⟨if (EF.fin c).ltb l then "BUY"
          else if (EF.fin c).gtb u then "SELL" else "NEUTRAL",
          by simp [bbandsSignal, lookup_bbUpper sqrtQ d hne,
            lookup_bbMiddle sqrtQ d hne, lookup_bbLower sqrtQ d hne,
            hc, hu, hl], ?_⟩
        intro hun hln
        obtain rfl := Option.some.inj hun
        obtain rfl := Option.some.inj hln
        simp [EF.ltb, EF.gtb]

lemma dictSetMany_nil_calc (sqrtQ : ℚ → ℚ) (d : List Candle) :
    dictSetMany ([] : List (String × List EF))
      (calculateAllIndicators sqrtQ d) = calculateAllIndicators sqrtQ d := by
  by_cases hne : d = []
  · simp [hne, calculateAllIndicators, dictSetMany]
  · simp [calculateAllIndicators, hne, dictSetMany, dictSet]

/-- Decomposition of one fresh `generate_signals` run on a non-empty
series: the dictionary holds exactly the four per-indicator signals in
source order followed by the overall vote over their values.  No
exception escapes: the `[-2]` accesses happen only behind a true `[-1]`
comparison, which a single candle (coinciding EMAs, coinciding macd and
signal line) never provides. -/
lemma generateSignalsFresh_eq (sqrtQ : ℚ → ℚ) (d : List Candle)
    (hne : d ≠ []) :
    ∃ vE vR vM vB,
      generateSignalsFresh sqrtQ d =
        [("ema_cross", vE), ("rsi", vR), ("macd", vM), ("bbands", vB),
         ("overall", overallVote [vE, vR, vM, vB])] ∧
      rsiSignal (calculateAllIndicators sqrtQ d) = .ok (some vR) ∧
      bbandsSignal (calculateAllIndicators sqrtQ d) (some d) =
        .ok (some vB) := by
  obtain ⟨vE, hE⟩ := emaCrossSignal_ok sqrtQ d hne
  obtain ⟨vR, hR, _, _⟩ := rsiSignal_ok sqrtQ d hne
  obtain ⟨vM, hM⟩ := macdCrossSignal_ok sqrtQ d hne
  obtain ⟨vB, hB, _⟩ := bbandsSignal_ok sqrtQ d hne
  have hcne : calculateAllIndicators sqrtQ d ≠ [] := by
    simp [calculateAllIndicators, hne]
  refine ⟨vE, vR, vM, vB, ?_, hR, hB⟩
  simp [generateSignalsFresh, generateSignalsSt, setData, calcAllSt, hne,
    dictSetMany_nil_calc, hcne, signalsTry, Bind.bind, Except.bind,
    pure, Except.pure, hE, hR, hM, hB, optEntry, overallVote]

/-- On fewer than `RSI_PERIOD` candles the final RSI position is still
inside the rolling warm-up, hence NaN. -/
lemma rsiLast_nan_of_short (d : List Candle) (hne : d ≠ [])
    (hshort : d.length < RSI_PERIOD) :
    (rsiList (closesOf d)).getLast? = some EF.nan := by
  have hx : (closesOf d).length = d.length := by simp [closesOf]
  have hpos : 0 < d.length := List.length_pos.mpr hne
  have h1 : (closesOf d).length - 1 < (closesOf d).length := by omega
  have hwarm := (rsi_defined (closesOf d) ((closesOf d).length - 1) h1).1
    (by omega)
  rw [List.getLast?_eq_getElem?, length_rsiList]
  exact hwarm

lemma rsiLast_nan_twoTens :
    (rsiList (closesOf [candleAt 10, candleAt 10])).getLast? =
      some EF.nan :=
  rsiLast_nan_of_short [candleAt 10, candleAt 10] (by simp)
    (by norm_num [RSI_PERIOD])

/-- Counterexample to **C3** as stated, at the 2-candle series
`[10, 10]`.  The RSI value at the final position is NaN (insufficient
candles for the 14-window), yet the `rsi` signal is *present* in the
Signal Set with value `NEUTRAL` — NaN comparisons are false on both the
oversold and overbought branches, so the code lands on the `NEUTRAL`
branch instead of omitting the key. -/
theorem signals_neutral_on_nan_counterexample :
    (generateSignalsFresh (fun q => q) [candleAt 10, candleAt 10]).lookup
        "rsi" = some "NEUTRAL" ∧
      (rsiList (closesOf [candleAt 10, candleAt 10])).getLast? =
        some EF.nan := by
  obtain ⟨vE, vR, vM, vB, heq, hR, _⟩ :=
    generateSignalsFresh_eq (fun q => q) [candleAt 10, candleAt 10]
      (by simp)
  obtain ⟨v, hv, hvnan, _⟩ :=
    rsiSignal_ok (fun q => q) [candleAt 10, candleAt 10] (by simp)
  rw [hR] at hv
  obtain rfl := Option.some.inj (Except.ok.inj hv)
  refine ⟨?_, rsiLast_nan_twoTens⟩
  rw [heq]
  simp [List.lookup, hvnan rsiLast_nan_twoTens]

/-- **C3 (amended).** For every non-empty series, `generate_signals`
raises no exception and omits no signal: the Signal Set holds exactly
`ema_cross`, `rsi`, `macd`, `bbands` (in source order) and `overall`
computed over those four.  (Even a single candle is safe: Python's
short-circuit `and` never reaches the `[-2]` accesses, because the two
EMAs — and the macd line and its signal line — coincide at a single
point.)  A signal whose prerequisite indicator values are NaN at the
final positions is *not* omitted: NaN comparisons are false, so it is
set to `NEUTRAL` (shown for `rsi` and for `bbands`).  Signals are
omitted only when their indicator keys are absent, which for this fixed
configuration happens only when the Indicator Set is empty (empty
data), in which case the Signal Set is empty too. -/
theorem signals_neutral_on_nan (sqrtQ : ℚ → ℚ) (d : List Candle)
    (hne : d ≠ []) :
    ∃ vE vR vM vB,
      generateSignalsFresh sqrtQ d =
        [("ema_cross", vE), ("rsi", vR), ("macd", vM), ("bbands", vB),
         ("overall", overallVote [vE, vR, vM, vB])] ∧
      ((rsiList (closesOf d)).getLast? = some EF.nan → vR = "NEUTRAL") ∧
      ((bbUpper sqrtQ (closesOf d)).getLast? = some EF.nan →
        (bbLower sqrtQ (closesOf d)).getLast? = some EF.nan →
        vB = "NEUTRAL") := by
  obtain ⟨vE, vR, vM, vB, heq, hR, hB⟩ := generateSignalsFresh_eq sqrtQ d hne
  obtain ⟨v, hv, hvnan, _⟩ := rsiSignal_ok sqrtQ d hne
  rw [hR] at hv
  obtain rfl := Option.some.inj (Except.ok.inj hv)
  obtain ⟨u, hu, hunan⟩ := bbandsSignal_ok sqrtQ d hne
  rw [hB] at hu
  obtain rfl := Option.some.inj (Except.ok.inj hu)
  exact ⟨vE, vR, vM, vB, heq, hvnan, hunan⟩

/-- Witness for the amended C3: even on a single candle the Signal Set
is complete and the `rsi` signal is present and `NEUTRAL` although its
last RSI value is NaN. -/
theorem signals_neutral_on_nan_witness :
    (generateSignalsFresh (fun q => q + 1) [candleAt 10]).lookup
      "rsi" = some "NEUTRAL" := by
  obtain ⟨vE, vR, vM, vB, heq, hRnan, _⟩ :=
    signals_neutral_on_nan (fun q => q + 1) [candleAt 10] (by simp)
  rw [heq]
  simp [List.lookup, hRnan (rsiLast_nan_of_short [candleAt 10] (by simp)
    (by norm_num [RSI_PERIOD]))]

/-- **C7.** Every Signal Set produced by a fresh `generate_signals` run
ends with an `overall` entry computed by counting `BUY` and `SELL`
occurrences among the other produced signal values (`NEUTRAL` never
counted): `BUY` on a strict buy majority, `SELL` on a strict sell
majority, `NEUTRAL` on every tie including 0-0; and the vote rule sends
`{BUY, SELL}` to `NEUTRAL` and `{BUY, BUY, SELL}` to `BUY`. -/
theorem overall_vote_majority (sqrtQ : ℚ → ℚ) (d : List Candle)
    (h2 : 2 ≤ d.length) :
    (∃ base : List (String × String),
      generateSignalsFresh sqrtQ d = base ++ [("overall",
        if ((base.map Prod.snd).filter (fun v => v = "SELL")).length <
            ((base.map Prod.snd).filter (fun v => v = "BUY")).length then
          "BUY"
        else if ((base.map Prod.snd).filter (fun v => v = "BUY")).length <
            ((base.map Prod.snd).filter (fun v => v = "SELL")).length then
          "SELL"
        else "NEUTRAL")] ∧
      "overall" ∉ base.map Prod.fst) ∧
    overallVote ["BUY", "SELL"] = "NEUTRAL" ∧
    overallVote ["BUY", "BUY", "SELL"] = "BUY" := by
  obtain ⟨vE, vR, vM, vB, heq, _, _⟩ := generateSignalsFresh_eq sqrtQ d
    (by intro h; rw [h] at h2; simp at h2)
  refine ⟨⟨[("ema_cross", vE), ("rsi", vR), ("macd", vM), ("bbands", vB)],
    ?_, by simp⟩, by decide, by decide⟩
  rw [heq]
  simp [overallVote]

/-- Witness for C7: the two vote instances, obtained from the theorem
at a concrete 2-candle input. -/
theorem overall_vote_majority_witness :
    overallVote ["BUY", "SELL"] = "NEUTRAL" ∧
    overallVote ["BUY", "BUY", "SELL"] = "BUY" :=
  (overall_vote_majority (fun q => q) [candleAt 10, candleAt 10]
    (by simp)).2

/-! ## RSI zero-average-loss edge case (C5) -/

lemma window_length (ys : List ℚ) (i w : Nat) (hw : w ≤ i + 1)
    (hi : i < ys.length) :
    ((ys.take (i + 1)).drop (i + 1 - w)).length = w := by
  simp only [List.length_drop, List.length_take]
  omega

lemma window_mem (ys : List ℚ) (i w : Nat) (hw : w ≤ i + 1)
    (hi : i < ys.length) (q : ℚ)
    (hq : q ∈ (ys.take (i + 1)).drop (i + 1 - w)) :
    ∃ k, k < w ∧ ys[i + 1 - w + k]? = some q := by
  obtain ⟨k, hk⟩ := List.mem_iff_getElem?.mp hq
  have hkl : k < ((ys.take (i + 1)).drop (i + 1 - w)).length := by
    rcases List.getElem?_eq_some.mp hk with ⟨h, _⟩
    exact h
  rw [window_length ys i w hw hi] at hkl
  refine ⟨k, hkl, ?_⟩
  rw [List.getElem?_drop, List.getElem?_take, if_pos (by omega)] at hk
  exact hk

lemma gains_getElem?_succ (xs : List ℚ) (j : Nat) :
    (gains xs)[j + 1]? = Option.map₂
      (fun a b => if 0 < a - b then a - b else 0) xs[j + 1]? xs[j]? := by
  cases xs with
  | nil => simp [gains]
  | cons x rest =>
    simp only [gains, List.getElem?_cons_succ, List.getElem?_map,
      List.getElem?_zipWith]
    cases rest[j]? <;> cases (x :: rest)[j]? <;> simp [Option.map₂]

lemma losses_getElem?_succ (xs : List ℚ) (j : Nat) :
    (losses xs)[j + 1]? = Option.map₂
      (fun a b => if a - b < 0 then -(a - b) else 0) xs[j + 1]? xs[j]? := by
  cases xs with
  | nil => simp [losses]
  | cons x rest =>
    simp only [losses, List.getElem?_cons_succ, List.getElem?_map,
      List.getElem?_zipWith]
    cases rest[j]? <;> cases (x :: rest)[j]? <;> simp [Option.map₂]

lemma delta_lt_of_chain (xs : List ℚ) (m j : Nat)
    (hch : List.Chain' (· < ·) (xs.drop m))
    (hmj : m ≤ j) (hj : j + 1 < xs.length) (a b : ℚ)
    (ha : xs[j]? = some a) (hb : xs[j + 1]? = some b) : a < b := by
  have hp := List.chain'_iff_pairwise.mp hch
  rw [List.pairwise_iff_getElem] at hp
  have hdl : (xs.drop m).length = xs.length - m := List.length_drop m xs
  have hi1 : j - m < (xs.drop m).length := by omega
  have hi2 : j + 1 - m < (xs.drop m).length := by omega
  have hlt := hp (j - m) (j + 1 - m) hi1 hi2 (by omega)
  have e1 : (xs.drop m)[j - m] = a := by
    have h1 := List.getElem?_drop xs m (j - m)
    have e : m + (j - m) = j := by omega
    rw [e, ha] at h1
    rcases List.getElem?_eq_some.mp h1 with ⟨_, hv⟩
    exact hv
  have e2 : (xs.drop m)[j + 1 - m] = b := by
    have h1 := List.getElem?_drop xs m (j + 1 - m)
    have e : m + (j + 1 - m) = j + 1 := by omega
    rw [e, hb] at h1
    rcases List.getElem?_eq_some.mp h1 with ⟨_, hv⟩
    exact hv
  rw [e1, e2] at hlt
  exact hlt

lemma rsi_means_of_updeltas (xs : List ℚ) (h15 : 15 ≤ xs.length)
    (hch : List.Chain' (· < ·) (xs.drop (xs.length - 15))) :
    meanAt (losses xs) (xs.length - 1) RSI_PERIOD = 0 ∧
    0 < meanAt (gains xs) (xs.length - 1) RSI_PERIOD := by
  have hw : RSI_PERIOD ≤ xs.length - 1 + 1 := by
    simp only [RSI_PERIOD]
    omega
  constructor
  · have hzero : ∀ q ∈ ((losses xs).take (xs.length - 1 + 1)).drop
        (xs.length - 1 + 1 - RSI_PERIOD), q = 0 := by
      intro q hq
      obtain ⟨k, hk, hval⟩ := window_mem (losses xs) (xs.length - 1)
        RSI_PERIOD hw (by rw [length_losses]; omega) q hq
      simp only [RSI_PERIOD] at hk hval
      have e : xs.length - 1 + 1 - 14 + k = xs.length - 15 + k + 1 := by
        omega
      rw [e, losses_getElem?_succ] at hval
      have hj2 : xs.length - 15 + k + 1 < xs.length := by omega
      have hb := List.getElem?_eq_getElem (l := xs)
        (n := xs.length - 15 + k + 1) hj2
      have ha := List.getElem?_eq_getElem (l := xs)
        (n := xs.length - 15 + k) (by omega)
      rw [ha, hb] at hval
      simp only [Option.map₂, Option.some_bind, Option.map_some',
        Option.some.injEq] at hval
      have hlt := delta_lt_of_chain xs (xs.length - 15)
        (xs.length - 15 + k) hch (by omega) hj2 _ _ ha hb
      rw [← hval, if_neg (not_lt.mpr (by linarith))]
    simp only [meanAt, windowSum, List.sum_eq_zero hzero, zero_div]
  · have hpos : ∀ q ∈ ((gains xs).take (xs.length - 1 + 1)).drop
        (xs.length - 1 + 1 - RSI_PERIOD), 0 < q := by
      intro q hq
      obtain ⟨k, hk, hval⟩ := window_mem (gains xs) (xs.length - 1)
        RSI_PERIOD hw (by rw [length_gains]; omega) q hq
      simp only [RSI_PERIOD] at hk hval
      have e : xs.length - 1 + 1 - 14 + k = xs.length - 15 + k + 1 := by
        omega
      rw [e, gains_getElem?_succ] at hval
      have hj2 : xs.length - 15 + k + 1 < xs.length := by omega
      have hb := List.getElem?_eq_getElem (l := xs)
        (n := xs.length - 15 + k + 1) hj2
      have ha := List.getElem?_eq_getElem (l := xs)
        (n := xs.length - 15 + k) (by omega)
      rw [ha, hb] at hval
      simp only [Option.map₂, Option.some_bind, Option.map_some',
        Option.some.injEq] at hval
      have hlt := delta_lt_of_chain xs (xs.length - 15)
        (xs.length - 15 + k) hch (by omega) hj2 _ _ ha hb
      rw [← hval, if_pos (by linarith)]
      linarith
    have hne : ((gains xs).take (xs.length - 1 + 1)).drop
        (xs.length - 1 + 1 - RSI_PERIOD) ≠ [] := by
      intro hempty
      have := window_length (gains xs) (xs.length - 1) RSI_PERIOD hw
        (by rw [length_gains]; omega)
      rw [hempty] at this
      simp [RSI_PERIOD] at this
    have hsum := List.sum_pos _ hpos hne
    have h14 : (0 : ℚ) < (RSI_PERIOD : ℚ) := by norm_num [RSI_PERIOD]
    exact div_pos hsum h14

/-- **C5.** When the last 14 deltas of the close series are all
positive (trailing average loss 0, average gain positive), the division
`avg_gain / avg_loss` is `+inf` under numpy semantics, so the last RSI
value resolves to exactly 100 — not NaN — and the `rsi` signal it feeds
is a definite `SELL` (100 > 70): no NaN from this edge case reaches the
Signal Set. -/
theorem rsi_zero_loss_clamps_to_100 (sqrtQ : ℚ → ℚ) (d : List Candle)
    (h15 : 15 ≤ d.length)
    (hch : List.Chain' (· < ·) ((closesOf d).drop (d.length - 15))) :
    (rsiList (closesOf d)).getLast? = some (EF.fin 100) ∧
    (generateSignalsFresh sqrtQ d).lookup "rsi" = some "SELL" := by
  have hlen : (closesOf d).length = d.length := by simp [closesOf]
  have hch2 : List.Chain' (· < ·)
      ((closesOf d).drop ((closesOf d).length - 15)) := by
    rw [hlen]
    exact hch
  obtain ⟨hl0, hgpos⟩ := rsi_means_of_updeltas (closesOf d)
    (by omega) hch2
  have hi : (closesOf d).length - 1 < (closesOf d).length := by omega
  have hval := rsiList_getElem? (closesOf d) ((closesOf d).length - 1) hi
  have hwm : ¬((closesOf d).length - 1 + 1 < RSI_PERIOD) := by
    simp only [RSI_PERIOD]
    omega
  rw [if_neg hwm, if_neg hwm, hl0,
    rsiAt_cases _ 0 hgpos.le le_rfl,
    if_neg (fun h => hgpos.ne' h.1), if_pos rfl] at hval
  have h100 : (rsiList (closesOf d)).getLast? = some (EF.fin 100) := by
    rw [List.getLast?_eq_getElem?, length_rsiList]
    exact hval
  refine ⟨h100, ?_⟩
  obtain ⟨vE, vR, vM, vB, heq, hR, _⟩ :=
    generateSignalsFresh_eq sqrtQ d
      (by intro h0; rw [h0] at h15; simp at h15)
  obtain ⟨v, hv, _, hv100⟩ := rsiSignal_ok sqrtQ d
    (by intro h0; rw [h0] at h15; simp at h15)
  rw [hR] at hv
  obtain rfl := Option.some.inj (Except.ok.inj hv)
  rw [heq]
  simp [List.lookup, hv100 h100]

/-- A 15-candle strictly increasing close series. -/
def dUp : List Candle :=
  [candleAt 1, candleAt 2, candleAt 3, candleAt 4, candleAt 5, candleAt 6,
   candleAt 7, candleAt 8, candleAt 9, candleAt 10, candleAt 11,
   candleAt 12, candleAt 13, candleAt 14, candleAt 15]

/-- Witness for C5: the strictly increasing 15-candle series has last
RSI exactly 100. -/
theorem rsi_zero_loss_clamps_to_100_witness :
    15 ≤ dUp.length ∧
    (rsiList (closesOf dUp)).getLast? = some (EF.fin 100) :=
  ⟨by decide, (rsi_zero_loss_clamps_to_100 (fun q => q) dUp (by decide)
    (by norm_num [dUp, closesOf, candleAt, List.chain'_cons])).1⟩

/-! ## Market summary lemmas (C9) -/

lemma reverse_two (xs : List ℚ) (h : 2 ≤ xs.length) :
    ∃ c p t, xs.reverse = c :: p :: t ∧ xs.getLast? = some c := by
  match hr : xs.reverse with
  | [] =>
    rw [List.reverse_eq_nil_iff] at hr
    subst hr
    simp at h
  | [b] =>
    have hlen := congrArg List.length hr
    simp only [List.length_reverse, List.length_cons,
      List.length_nil] at hlen
    omega
  | c :: p :: t =>
    refine ⟨c, p, t, rfl, ?_⟩
    rw [← List.head?_reverse, hr]
    rfl

lemma rollingMeanQ_getLast (w : Nat) (xs : List ℚ) (hw : w ≤ xs.length)
    (hw1 : 1 ≤ w) :
    (rollingMeanQ w xs).getLast? =
      some (EF.fin (meanAt xs (xs.length - 1) w)) := by
  rw [List.getLast?_eq_getElem?, length_rollingMeanQ,
    rollingMeanQ_getElem? w xs (xs.length - 1) (by omega),
    if_neg (by omega)]

lemma meanAt_pos (xs : List ℚ) (i w : Nat) (hw : w ≤ i + 1) (hw1 : 1 ≤ w)
    (hi : i < xs.length) (hx : ∀ q ∈ xs, 0 < q) :
    0 < meanAt xs i w := by
  have hpos : ∀ q ∈ (xs.take (i + 1)).drop (i + 1 - w), 0 < q := fun q hq =>
    hx q (List.mem_of_mem_take (List.mem_of_mem_drop hq))
  have hne : (xs.take (i + 1)).drop (i + 1 - w) ≠ [] := by
    intro hempty
    have hl := window_length xs i w hw hi
    rw [hempty] at hl
    simp at hl
    omega
  have hwq : (0 : ℚ) < (w : ℚ) := by
    exact_mod_cast hw1
  exact div_pos (List.sum_pos _ hpos hne) hwq

/-- **C9.** For a series of at least 50 positive-close candles,
`get_market_summary` classifies the trend from `price = close[-1]`,
`sma20` and `sma50` exactly as: strong-uptrend iff
`price > sma20 > sma50`; possible-rebound iff `price > sma20` and
`sma20 < sma50`; possible-pullback iff `price < sma20` and
`sma20 > sma50`; downtrend otherwise.  For a series of 2 to 49 candles
the trend is the explicit insufficient-data label (sma50 is `None`,
which is falsy). -/
theorem market_summary_trend (d : List Candle)
    (hpos : ∀ c ∈ d, 0 < c.close) :
    ((50 ≤ d.length) →
      (summaryTrend (getMarketSummary d) = some TREND_STRONG_UP ↔
        (meanAt (closesOf d) (d.length - 1) 20 <
            (closesOf d).getLast?.getD 0 ∧
          meanAt (closesOf d) (d.length - 1) 50 <
            meanAt (closesOf d) (d.length - 1) 20)) ∧
      (summaryTrend (getMarketSummary d) = some TREND_REBOUND ↔
        (meanAt (closesOf d) (d.length - 1) 20 <
            (closesOf d).getLast?.getD 0 ∧
          meanAt (closesOf d) (d.length - 1) 20 <
            meanAt (closesOf d) (d.length - 1) 50)) ∧
      (summaryTrend (getMarketSummary d) = some TREND_PULLBACK ↔
        ((closesOf d).getLast?.getD 0 <
            meanAt (closesOf d) (d.length - 1) 20 ∧
          meanAt (closesOf d) (d.length - 1) 50 <
            meanAt (closesOf d) (d.length - 1) 20)) ∧
      (summaryTrend (getMarketSummary d) = some TREND_DOWN ↔
        (¬(meanAt (closesOf d) (d.length - 1) 20 <
              (closesOf d).getLast?.getD 0 ∧
            meanAt (closesOf d) (d.length - 1) 50 <
              meanAt (closesOf d) (d.length - 1) 20) ∧
          ¬(meanAt (closesOf d) (d.length - 1) 20 <
              (closesOf d).getLast?.getD 0 ∧
            meanAt (closesOf d) (d.length - 1) 20 <
              meanAt (closesOf d) (d.length - 1) 50) ∧
          ¬((closesOf d).getLast?.getD 0 <
              meanAt (closesOf d) (d.length - 1) 20 ∧
            meanAt (closesOf d) (d.length - 1) 50 <
              meanAt (closesOf d) (d.length - 1) 20)))) ∧
    (2 ≤ d.length → d.length < 50 →
      summaryTrend (getMarketSummary d) = some TREND_INSUFFICIENT) := by
  have hxlen : (closesOf d).length = d.length := by simp [closesOf]
  have hclpos : ∀ q ∈ closesOf d, 0 < q := by
    intro q hq
    simp only [closesOf, List.mem_map] at hq
    obtain ⟨cd, hcd, rfl⟩ := hq
    exact hpos cd hcd
  constructor
  · intro h50
    have hne : d ≠ [] := by
      intro h
      rw [h] at h50
      simp at h50
    have h2 : 2 ≤ (closesOf d).length := by omega
    obtain ⟨c, p, t, hr, hlast⟩ := reverse_two (closesOf d) h2
    have hs20 := rollingMeanQ_getLast 20 (closesOf d) (by omega)
      (by norm_num)
    have hs50 := rollingMeanQ_getLast 50 (closesOf d) (by omega)
      (by norm_num)
    rw [hxlen] at hs20 hs50
    have hp20 : 0 < meanAt (closesOf d) (d.length - 1) 20 := by
      have := meanAt_pos (closesOf d) ((closesOf d).length - 1) 20
        (by omega) (by norm_num) (by omega) hclpos
      rwa [hxlen] at this
    have hp50 : 0 < meanAt (closesOf d) (d.length - 1) 50 := by
      have := meanAt_pos (closesOf d) ((closesOf d).length - 1) 50
        (by omega) (by norm_num) (by omega) hclpos
      rwa [hxlen] at this
    have h20d : 20 ≤ d.length := by omega
    have hsum : summaryTrend (getMarketSummary d) = some (
        if (EF.fin c).gtb (.fin (meanAt (closesOf d) (d.length - 1) 20)) &&
            (EF.fin (meanAt (closesOf d) (d.length - 1) 20)).gtb
              (.fin (meanAt (closesOf d) (d.length - 1) 50)) then
          TREND_STRONG_UP
        else if (EF.fin c).gtb
              (.fin (meanAt (closesOf d) (d.length - 1) 20)) &&
            (EF.fin (meanAt (closesOf d) (d.length - 1) 20)).ltb
              (.fin (meanAt (closesOf d) (d.length - 1) 50)) then
          TREND_REBOUND
        else if (EF.fin c).ltb
              (.fin (meanAt (closesOf d) (d.length - 1) 20)) &&
            (EF.fin (meanAt (closesOf d) (d.length - 1) 20)).gtb
              (.fin (meanAt (closesOf d) (d.length - 1) 50)) then
          TREND_PULLBACK
        else TREND_DOWN) := by
      simp only [getMarketSummary, hne, if_false, reduceIte, hr, h50,
        h20d, if_true, hs20, hs50, summaryTrend, truthy, hp20.ne',
        hp50.ne', ne_eq, not_false_eq_true, Bool.and_self, if_pos]
      simp [truthy, hp20.ne', hp50.ne']
    rw [hlast]
    simp only [Option.getD_some]
    rw [hsum]
    simp only [EF.gtb, EF.ltb, Bool.and_eq_true, decide_eq_true_eq,
      Option.some.injEq, TREND_STRONG_UP, TREND_REBOUND, TREND_PULLBACK,
      TREND_DOWN]
    split_ifs with h1 h2a h3
    · exact ⟨iff_of_true rfl h1,
        iff_of_false (by decide)
          (fun hB => absurd hB.2 (not_lt.mpr h1.2.le)),
        iff_of_false (by decide)
          (fun hC => absurd hC.1 (not_lt.mpr h1.1.le)),
        iff_of_false (by decide) (fun hD => hD.1 h1)⟩
    · exact ⟨iff_of_false (by decide) h1,
        iff_of_true rfl h2a,
        iff_of_false (by decide)
          (fun hC => absurd hC.1 (not_lt.mpr h2a.1.le)),
        iff_of_false (by decide) (fun hD => hD.2.1 h2a)⟩
    · exact ⟨iff_of_false (by decide) h1,
        iff_of_false (by decide) h2a,
        iff_of_true rfl h3,
        iff_of_false (by decide) (fun hD => hD.2.2 h3)⟩
    · exact ⟨iff_of_false (by decide) h1,
        iff_of_false (by decide) h2a,
        iff_of_false (by decide) h3,
        iff_of_true rfl ⟨h1, h2a, h3⟩⟩
  · intro h2d hlt50
    have hne : d ≠ [] := by
      intro h
      rw [h] at h2d
      simp at h2d
    have h2 : 2 ≤ (closesOf d).length := by omega
    obtain ⟨c, p, t, hr, hlast⟩ := reverse_two (closesOf d) h2
    have hn50 : ¬(50 ≤ d.length) := by omega
    simp [getMarketSummary, hne, hr, summaryTrend, hn50, truthy]

/-- Witness for C9: a 2-candle series gets the explicit
insufficient-data trend label. -/
theorem market_summary_trend_witness :
    summaryTrend (getMarketSummary [candleAt 1, candleAt 2]) =
      some TREND_INSUFFICIENT :=
  (market_summary_trend [candleAt 1, candleAt 2] (by decide)).2
    (by decide) (by decide)

end Trand
